import Mathlib

/-!
Verification development for the jlox tree-walking Lox interpreter (Rust).

The definitions below are a shallow embedding of the repository's source:

* `src/scanner.rs`        — tokens and the scanner state machine
* `src/expr.rs`+`src/ast.rs` — the expression AST (structural `PartialEq`/`Hash`
  derived by the `ast!` macro)
* `src/stmt.rs`           — the statement AST
* `src/parser.rs`         — the recursive-descent parser (exceptions modelled
  as `Except String`)
* `src/resolver.rs`       — the static resolution pass
* `src/interpreter.rs`, `src/interpreter/environment.rs`,
  `src/interpreter/object.rs`, `src/interpreter/object/{class,function,instance}.rs`
  — the evaluator.

Modelling conventions:
* `Arc<RwLock<Environment>>` graphs become an arena (`Store.envs : List Frame`)
  with environment ids (`Nat`) as pointers; instance field maps live in a second
  arena (`Store.fields`).  This mirrors the shared-reference semantics of the
  Rust code: mutations through any alias are visible to all.
* Lox numbers are IEEE-754 doubles in the source; they are modelled as exact
  rationals (`Rat`).  No claim below depends on floating-point rounding, and on
  the small integral inputs used in the theorems the two agree.
* The `trycatch` exception channel of the source (used for `ReturnException`,
  `RuntimeError`, plain `String` throws from the environment, and Rust panics)
  is modelled by the `Exc` sum carried in every result; state mutated before a
  throw survives the throw, exactly as the `Arc`-shared state does in Rust.
-/

namespace JLox

/-- Token kinds, from the `TokenType` enum of `src/scanner.rs`. -/
inductive TokenType where
  | LEFT_PAREN | RIGHT_PAREN | LEFT_BRACE | RIGHT_BRACE
  | COMMA | DOT | MINUS | PLUS | SEMICOLON | SLASH | STAR
  | BANG | BANG_EQUAL | EQUAL | EQUAL_EQUAL
  | GREATER | GREATER_EQUAL | LESS | LESS_EQUAL
  | IDENTIFIER | STRING | NUMBER
  | AND | CLASS | ELSE | FALSE | FUN | FOR | IF | NIL | OR
  | PRINT | RETURN | SUPER | THIS | TRUE | VAR | WHILE
  | EOF
deriving DecidableEq, Repr

/-- The literal payload a token or a `Literal` expression can carry.  In the
source the field has the full runtime `Object` type, but the scanner only ever
stores `Number`/`String` payloads (`src/scanner.rs`) and the parser additionally
builds `Bool` and `Null` literal objects (`src/parser.rs`); this type is that
reachable subset. -/
inductive LitVal where
  | num (q : Rat)
  | str (s : String)
  | bool (b : Bool)
  | null
deriving DecidableEq, Repr

/-- `Token` from `src/scanner.rs`: kind, exact lexeme, literal payload, 1-based
line.  Equality and hashing are structural (`derive(PartialEq, Eq, Hash)`). -/
structure Token where
  ttype : TokenType
  lexeme : String
  literal : LitVal
  line : Nat
deriving DecidableEq, Repr

/-- `Token::new`: a token with a `Null` literal payload. -/
def Token.new (ttype : TokenType) (lexeme : String) (line : Nat) : Token :=
  ⟨ttype, lexeme, LitVal.null, line⟩

/-- The expression AST produced by the `ast!` macro (`src/ast.rs`): variants
`Binary, Assign, Grouping, Literal, Logical, Unary, Variable, Call, Get, Set,
This, Super`.  The macro derives `PartialEq, Eq, Hash` — equality of two
expression nodes is **structural**, which is what `DecidableEq` gives here. -/
inductive Expr where
  | binary (left : Expr) (operator : Token) (right : Expr)
  | assign (name : Token) (value : Expr)
  | grouping (expression : Expr)
  | literal (value : LitVal)
  | logical (left : Expr) (operator : Token) (right : Expr)
  | unary (operator : Token) (right : Expr)
  | variable_ (name : Token)
  | call (callee : Expr) (paren : Token) (arguemnts : List Expr)
  | get (object : Expr) (name : Token)
  | set (object : Expr) (name : Token) (value : Expr)
  | this (keyword : Token)
  | super_ (keyword : Token) (method : Token)

mutual
/-- Structural equality of expression nodes, as derived by
`#[derive(PartialEq, Eq, Hash)]` in the `ast!` macro: two nodes are equal iff
all fields (tokens included) are equal.  This is the equality the interpreter's
`locals: HashMap<expr::Expr, usize>` side-table keys by. -/
def Expr.beq : Expr → Expr → Bool
  | .binary l1 o1 r1, .binary l2 o2 r2 => Expr.beq l1 l2 && o1 == o2 && Expr.beq r1 r2
  | .assign n1 v1, .assign n2 v2 => n1 == n2 && Expr.beq v1 v2
  | .grouping e1, .grouping e2 => Expr.beq e1 e2
  | .literal v1, .literal v2 => v1 == v2
  | .logical l1 o1 r1, .logical l2 o2 r2 => Expr.beq l1 l2 && o1 == o2 && Expr.beq r1 r2
  | .unary o1 r1, .unary o2 r2 => o1 == o2 && Expr.beq r1 r2
  | .variable_ n1, .variable_ n2 => n1 == n2
  | .call c1 p1 a1, .call c2 p2 a2 => Expr.beq c1 c2 && p1 == p2 && Expr.beqList a1 a2
  | .get o1 n1, .get o2 n2 => Expr.beq o1 o2 && n1 == n2
  | .set o1 n1 v1, .set o2 n2 v2 => Expr.beq o1 o2 && n1 == n2 && Expr.beq v1 v2
  | .this k1, .this k2 => k1 == k2
  | .super_ k1 m1, .super_ k2 m2 => k1 == k2 && m1 == m2
  | _, _ => false

/-- Pointwise structural equality of argument lists (part of the derived
`PartialEq` for the `Call` variant). -/
def Expr.beqList : List Expr → List Expr → Bool
  | [], [] => true
  | x :: xs, y :: ys => Expr.beq x y && Expr.beqList xs ys
  | _, _ => false
end

instance : BEq Expr := ⟨Expr.beq⟩

mutual
/-- The statement AST (`src/stmt.rs`): `Block, Expression, Print, Var, If,
While, Function, Return, Class`. -/
inductive Stmt where
  | block (statements : List Stmt)
  | expression (e : Expr)
  | print (e : Expr)
  | varDecl (name : Token) (initializer : Option Expr)
  | ifS (condition : Expr) (thenBranch : Stmt) (elseBranch : Option Stmt)
  | whileS (condition : Expr) (body : Stmt)
  | function (decl : FunctionS)
  | ret (keyword : Token) (value : Option Expr)
  | classS (name : Token) (superclass : Option Token) (methods : List FunctionS)

/-- `stmt::Function`: a function declaration (name, parameters, body). -/
inductive FunctionS where
  | mk (name : Token) (params : List Token) (body : List Stmt)
end

def FunctionS.name : FunctionS → Token
  | .mk n _ _ => n
def FunctionS.params : FunctionS → List Token
  | .mk _ p _ => p
def FunctionS.body : FunctionS → List Stmt
  | .mk _ _ b => b

/-! ## Runtime values

`Object` from `src/interpreter/object.rs`.  Environment cells and instance
field maps sit behind `Arc<RwLock<…>>` in the source; here they are ids into
the two arenas of `Store`.  A `Function` object in the source holds
`Arc<RwLock<dyn LoxCallable>>` and is compared by `Arc::ptr_eq`; the model
gives every freshly created function object a fresh id (`Store.nextFunId`)
playing the role of the `Arc` address. -/

/-- `LoxFunction` (`src/interpreter/object/function.rs`): declaration,
captured closure environment, and the class-initializer flag. -/
structure LoxFunction where
  declaration : FunctionS
  closure : Nat
  is_initializer : Bool

/-- `LoxClass` (`src/interpreter/object/class.rs`): name, method map and an
optional (boxed, immutable) superclass. -/
inductive LoxClass where
  | mk (name : String) (methods : List (String × LoxFunction)) (superclass : Option LoxClass)

def LoxClass.name : LoxClass → String
  | .mk n _ _ => n
def LoxClass.methods : LoxClass → List (String × LoxFunction)
  | .mk _ m _ => m
def LoxClass.superclass : LoxClass → Option LoxClass
  | .mk _ _ s => s

/-- `LoxInstance` (`src/interpreter/object/instance.rs`): a class plus a shared
mutable field map, modelled as an id into `Store.fields`. -/
structure LoxInstance where
  class_ : LoxClass
  fieldsId : Nat

/-- The callables that can sit behind `Object::Function`: a `LoxFunction` or
the native `Clock`. -/
inductive Callable where
  | fn (f : LoxFunction)
  | clock

/-- The runtime value: the `Object` enum of `src/interpreter/object.rs`
(`Number, String, Bool, Function, Class, Instance, Null`).  `funId` models the
`Arc` pointer used by `PartialEq`. -/
inductive Object where
  | number (n : Rat)
  | str (s : String)
  | bool (b : Bool)
  | func (funId : Nat) (c : Callable)
  | cls (c : LoxClass)
  | inst (i : LoxInstance)
  | null

/-- `impl PartialEq for Object` (`src/interpreter/object.rs`, lines 114-128):
`Instance`/`Class` compare by **class name**, primitives structurally,
`Function` by `Arc::ptr_eq`, everything else (mixed kinds) is `false`.  Each
Rust match arm with a failed guard falls through to the final `_ => false`. -/
def objectEq : Object → Object → Bool
  | .inst i1, .inst i2 => i1.class_.name == i2.class_.name
  | .cls c1, .cls c2 => c1.name == c2.name
  | .number n1, .number n2 => n1 == n2
  | .str s1, .str s2 => s1 == s2
  | .bool b1, .bool b2 => b1 == b2
  | .null, .null => true
  | .func id1 _, .func id2 _ => id1 == id2
  | _, _ => false

/-- `Object::is_num`. -/
def Object.is_num : Object → Bool
  | .number _ => true
  | _ => false
/-- `Object::is_str`. -/
def Object.is_str : Object → Bool
  | .str _ => true
  | _ => false
/-- `Object::is_fun`: `Function` **or** `Class`. -/
def Object.is_fun : Object → Bool
  | .func _ _ => true
  | .cls _ => true
  | _ => false
/-- `Object::is_null`. -/
def Object.is_null : Object → Bool
  | .null => true
  | _ => false
/-- `Object::is_class` (used by `visit_class_stmt`). -/
def Object.is_class : Object → Bool
  | .cls _ => true
  | _ => false

/-- `LoxClass::find_method`: the method map first, then the superclass chain. -/
def LoxClass.find_method : LoxClass → String → Option LoxFunction
  | .mk _ methods superclass, name =>
    match methods.lookup name with
    | some m => some m
    | none =>
      match superclass with
      | some s => LoxClass.find_method s name
      | none => none

/-! ## Environments and the shared-state arena -/

/-- One environment frame (`Environment` in
`src/interpreter/environment.rs`): a name → `Option<Object>` map and the
enclosing link.  `define(name, None)` really stores `None` (used by
`visit_class_stmt`). -/
structure Frame where
  values : List (String × Option Object)
  enclosing : Option Nat

/-- `HashMap::insert`: replace the binding if the key is present, else add. -/
def mapInsert {α : Type} (m : List (String × α)) (k : String) (v : α) :
    List (String × α) :=
  match m with
  | [] => [(k, v)]
  | (k', v') :: rest =>
    if k' == k then (k, v) :: rest else (k', v') :: mapInsert rest k v

/-- The shared mutable state behind all the `Arc<RwLock<…>>` values: the
environment arena, the instance-field arena, the fresh-`Arc` counter for
function objects, and the lines printed by `print`. -/
structure Store where
  envs : List Frame
  fields : List (List (String × Object))
  nextFunId : Nat
  output : List String

/-- Allocate a new environment frame (an `Arc::new(RwLock::new(env))`). -/
def Store.alloc (st : Store) (f : Frame) : Nat × Store :=
  (st.envs.length, { st with envs := st.envs ++ [f] })

/-- Read a frame by id. -/
def Store.frame (st : Store) (id : Nat) : Frame :=
  st.envs.getD id ⟨[], none⟩

/-- Replace a frame by id. -/
def Store.setFrame (st : Store) (id : Nat) (f : Frame) : Store :=
  { st with envs := st.envs.set id f }

/-- `Environment::define`: unconditional insert into the frame's map. -/
def Store.define (st : Store) (envId : Nat) (name : String)
    (value : Option Object) : Store :=
  let f := st.frame envId
  st.setFrame envId { f with values := mapInsert f.values name value }

/-- Allocate a fresh instance field map. -/
def Store.allocFields (st : Store) : Nat × Store :=
  (st.fields.length, { st with fields := st.fields ++ [[]] })

/-- The exception channel of the source: `ReturnException`, `RuntimeError`
(token line + message), a plain `String` throw (the environment's
undefined-variable errors), and a Rust panic (`unwrap` failures; re-raised
verbatim by every `catch`). -/
inductive Exc where
  | ret (v : Object)
  | rte (line : Nat) (msg : String)
  | sexc (msg : String)
  | panicE (msg : String)

/-- `Environment::get`: this frame's map, else the enclosing chain, else a
thrown `String` error.  An entry bound to `None` in this frame falls through
to the enclosing chain (the `if let Some(Some(obj))` pattern).  `fuel` bounds
the chain walk (the chain is finite in every reachable store). -/
def Store.envGet (st : Store) (fuel : Nat) (envId : Nat) (token : Token) :
    Except Exc Object :=
  match fuel with
  | 0 => .error (.panicE "environment chain fuel exhausted")
  | fuel + 1 =>
    let f := st.frame envId
    match f.values.lookup token.lexeme with
    | some (some obj) => .ok obj
    | _ =>
      match f.enclosing with
      | some parent => st.envGet fuel parent token
      | none =>
        .error (.sexc
          ("Undefined variable '" ++ token.lexeme ++ "'.\n[line " ++
            toString token.line ++ "]"))

/-- `Environment::assign`: set in the nearest frame whose map contains the
name (even if bound to `None` — the `Entry::Occupied` test), else throw. -/
def Store.envAssign (st : Store) (fuel : Nat) (envId : Nat) (name : Token)
    (value : Object) : Except Exc Store :=
  match fuel with
  | 0 => .error (.panicE "environment chain fuel exhausted")
  | fuel + 1 =>
    let f := st.frame envId
    match f.values.lookup name.lexeme with
    | some _ =>
      .ok (st.setFrame envId
        { f with values := mapInsert f.values name.lexeme (some value) })
    | none =>
      match f.enclosing with
      | some parent => st.envAssign fuel parent name value
      | none =>
        .error (.sexc
          ("Undefined variable '" ++ name.lexeme ++ "'.\n[line " ++
            toString name.line ++ "]"))

/-- `Environment::ancestor`: follow the enclosing link exactly `distance`
times; `none` models the `unwrap` panic on a missing link. -/
def Store.ancestor (st : Store) (envId : Nat) (distance : Nat) : Option Nat :=
  match distance with
  | 0 => some envId
  | d + 1 =>
    match (st.frame envId).enclosing with
    | some parent => st.ancestor parent d
    | none => none

/-- `Environment::get_at`: direct map access on `ancestor(distance)`; the
double `unwrap` of the source means any missing binding is a panic, modelled
by `none`. -/
def Store.getAt (st : Store) (envId : Nat) (distance : Nat) (name : String) :
    Option Object :=
  match st.ancestor envId distance with
  | none => none
  | some id =>
    match (st.frame id).values.lookup name with
    | some (some obj) => some obj
    | _ => none

/-- `Environment::assign_at`: unconditional insert on `ancestor(distance)`. -/
def Store.assignAt (st : Store) (envId : Nat) (distance : Nat) (name : Token)
    (value : Object) : Option Store :=
  match st.ancestor envId distance with
  | none => none
  | some id =>
    let f := st.frame id
    some (st.setFrame id
      { f with values := mapInsert f.values name.lexeme (some value) })

/-! ## The interpreter -/

/-- The `Interpreter` struct of `src/interpreter.rs`: the current environment,
the globals, and the resolver side-table `locals: HashMap<expr::Expr, usize>`.
The table is keyed by the **structural** equality `Expr.beq` (the derived
`PartialEq`/`Hash`). -/
structure Interp where
  environment : Nat
  globals : Nat
  locals : List (Expr × Nat)

/-- `HashMap::get` on the `locals` side-table: lookup by structural equality. -/
def localsGet (locals : List (Expr × Nat)) (key : Expr) : Option Nat :=
  match locals with
  | [] => none
  | (k, d) :: rest => if Expr.beq k key then some d else localsGet rest key

/-- `HashMap::insert` on the `locals` side-table: a structurally equal key is
overwritten (this is `Interpreter::resolve`). -/
def localsInsert (locals : List (Expr × Nat)) (key : Expr) (d : Nat) :
    List (Expr × Nat) :=
  match locals with
  | [] => [(key, d)]
  | (k, d') :: rest =>
    if Expr.beq k key then (key, d) :: rest
    else (k, d') :: localsInsert rest key d

/-- `is_truthy`: `null` is false, a `Bool` is itself, anything else is true
(the `try_downcast!(…).unwrap_or(true)`). -/
def is_truthy : Object → Bool
  | .null => false
  | .bool b => b
  | _ => true

/-- `is_equal`: plain `==` on `Object` (the custom `PartialEq`). -/
def is_equal (right left : Object) : Bool := objectEq right left

/-- The model of `f64`'s `Display` for the number values reachable in the
theorems below: integral rationals print as their integer part (Rust prints
`1`, and `trim_end_matches(".0")` leaves it unchanged); the non-integral case
prints the exact fraction and is never exercised by a theorem. -/
def numToString (q : Rat) : String :=
  if q.den == 1 then toString q.num else toString q.num ++ "/" ++ toString q.den

/-- `Display for Object` from `src/interpreter/object.rs` (note: `Null`
displays as `"Null"` there). -/
def Object.display : Object → String
  | .number n => numToString n
  | .str s => s
  | .bool b => toString b
  | .null => "Null"
  | .cls c => c.name
  | .inst i => i.class_.name ++ " instance"
  | .func _ _ => "<function>"

/-- `stringify` (`src/interpreter.rs`): numbers print with a trailing `.0`
trimmed, everything else via `Display`. -/
def stringify (obj : Object) : String :=
  if obj.is_num then
    match obj with
    | .number n => numToString n
    | _ => ""
  else obj.display

/-- `check_number_operands`: all operands must be numbers, else a
`RuntimeError` whose message depends on the operand count. -/
def check_number_operands (operator : Token) (operands : List Object) :
    Except Exc Unit :=
  if operands.all Object.is_num then .ok ()
  else if operands.length > 1 then
    .error (.rte operator.line "Operands must be numbers.")
  else
    .error (.rte operator.line "Operand must be a number.")

/-- The literal payload as a runtime value (`visit_literal_expr` returns the
stored `Object` payload unchanged). -/
def litToObject : LitVal → Object
  | .num q => .number q
  | .str s => .str s
  | .bool b => .bool b
  | .null => .null

/-- `LoxFunction::arity`: the parameter count of the declaration. -/
def LoxFunction.arity (f : LoxFunction) : Nat := f.declaration.params.length

/-- `LoxClass::arity`: the arity of `init` if the chain has one, else 0. -/
def LoxClass.arity (c : LoxClass) : Nat :=
  match c.find_method "init" with
  | some init => init.arity
  | none => 0

/-- `function.try_read().unwrap().arity()` in `visit_call_expr`: the arity of
the callable the `downcast_to_lox_callable!` macro produced (reached only
after `is_fun`; the final arm is dead). -/
def calleeArity : Object → Nat
  | .func _ (.fn f) => f.arity
  | .func _ .clock => 0
  | .cls c => c.arity
  | _ => 0

/-- `LoxFunction::bind`: a new environment defining `"this"` to the instance,
enclosing the function's closure; the bound function closes over it. -/
def LoxFunction.bind (f : LoxFunction) (i : LoxInstance) (st : Store) :
    LoxFunction × Store :=
  let (id, st) := st.alloc ⟨[("this", some (.inst i))], some f.closure⟩
  ({ f with closure := id }, st)

/-- `LoxInstance::set`: insert into the shared field map. -/
def LoxInstance.set (i : LoxInstance) (name : Token) (value : Object)
    (st : Store) : Store :=
  { st with
    fields := st.fields.set i.fieldsId
      (mapInsert (st.fields.getD i.fieldsId []) name.lexeme value) }

/-- `LoxInstance::get` (`src/interpreter/object/instance.rs`): fields first,
then the class method chain (binding a found method to the instance behind a
fresh `Arc`), else the `Undefined property` runtime error. -/
def LoxInstance.get (i : LoxInstance) (name : Token) (st : Store) :
    (Except Exc Object) × Store :=
  match (st.fields.getD i.fieldsId []).lookup name.lexeme with
  | some field => (.ok field, st)
  | none =>
    match i.class_.find_method name.lexeme with
    | some m =>
      let (bound, st) := m.bind i st
      let id := st.nextFunId
      (.ok (.func id (.fn bound)), { st with nextFunId := id + 1 })
    | none =>
      (.error (.rte name.line ("Undefined property '" ++ name.lexeme ++ "'.")),
        st)

/-- `Interpreter::lookup_variable`: a side-table hit reads through
`get_at(distance, lexeme)` (a missing binding there is an `unwrap` panic);
a miss reads the globals via `Environment::get`. -/
def lookupVariable (I : Interp) (st : Store) (name : Token) (key : Expr) :
    Except Exc Object :=
  match localsGet I.locals key with
  | some d =>
    match st.getAt I.environment d name.lexeme with
    | some v => .ok v
    | none => .error (.panicE "get_at: unwrap of a missing binding")
  | none => st.envGet (st.envs.length + 1) I.globals name

/-- Shared shape of the arithmetic/comparison arms of `visit_binary_expr`:
`check_number_operands` then the operation on the two numbers. -/
def numericOp (operator : Token) (left right : Object)
    (op : Rat → Rat → Object) : Except Exc Object :=
  match check_number_operands operator [left, right] with
  | .error exc => .error exc
  | .ok _ =>
    match left, right with
    | .number a, .number b => .ok (op a b)
    | _, _ => .error (.panicE "downcast Number")

/-- `Binary` operator dispatch of `visit_binary_expr`, after both operand
evaluations (pure: it only throws type errors).  `left`/`right` follow the
source's names. -/
def evalBinaryOp (operator : Token) (left right : Object) : Except Exc Object :=
  match operator.ttype with
  | .MINUS => numericOp operator left right (fun a b => .number (a - b))
  | .PLUS =>
    if left.is_num && right.is_num then
      match left, right with
      | .number a, .number b => .ok (.number (a + b))
      | _, _ => .error (.panicE "downcast Number")
    else if left.is_str && right.is_str then
      match left, right with
      | .str a, .str b => .ok (.str (a ++ b))
      | _, _ => .error (.panicE "downcast String")
    else
      .error (.rte operator.line "Operands must be two numbers or two strings.")
  | .SLASH => numericOp operator left right (fun a b => .number (a / b))
  | .STAR => numericOp operator left right (fun a b => .number (a * b))
  | .GREATER => numericOp operator left right (fun a b => .bool (a > b))
  | .GREATER_EQUAL => numericOp operator left right (fun a b => .bool (a ≥ b))
  | .LESS => numericOp operator left right (fun a b => .bool (a < b))
  | .LESS_EQUAL => numericOp operator left right (fun a b => .bool (a ≤ b))
  | .BANG_EQUAL => .ok (.bool (!is_equal left right))
  | .EQUAL_EQUAL => .ok (.bool (is_equal left right))
  | _ => .error (.panicE "unreachable")

mutual

/-- `Interpreter::evaluate` / the `expr::Visit<Object>` impl of
`src/interpreter.rs`.  Returns the value or the thrown exception, together
with the mutated shared store (which survives a throw). -/
def evaluate (fuel : Nat) (I : Interp) (st : Store) (e : Expr) :
    (Except Exc Object) × Store :=
  match fuel with
  | 0 => (.error (.panicE "fuel exhausted"), st)
  | fuel + 1 =>
    match e with
    | .literal v => (.ok (litToObject v), st)
    | .grouping inner => evaluate fuel I st inner
    | .unary operator right =>
      match evaluate fuel I st right with
      | (.error exc, st) => (.error exc, st)
      | (.ok r, st) =>
        match operator.ttype with
        | .MINUS =>
          match check_number_operands operator [r] with
          | .error exc => (.error exc, st)
          | .ok _ =>
            match r with
            | .number n => (.ok (.number (-n)), st)
            | _ => (.error (.panicE "downcast Number"), st)
        | .BANG => (.ok (.bool (!is_truthy r)), st)
        | _ => (.error (.panicE "unreachable"), st)
    | .binary left operator right =>
      -- the source evaluates the RIGHT operand first, then the left
      match evaluate fuel I st right with
      | (.error exc, st) => (.error exc, st)
      | (.ok r, st) =>
        match evaluate fuel I st left with
        | (.error exc, st) => (.error exc, st)
        | (.ok l, st) => (evalBinaryOp operator l r, st)
    | .logical left operator right =>
      match evaluate fuel I st left with
      | (.error exc, st) => (.error exc, st)
      | (.ok l, st) =>
        if operator.ttype == .OR then
          if is_truthy l then (.ok l, st) else evaluate fuel I st right
        else
          if !is_truthy l then (.ok l, st) else evaluate fuel I st right
    | .variable_ name => (lookupVariable I st name (.variable_ name), st)
    | .this keyword => (lookupVariable I st keyword (.this keyword), st)
    | .assign name value =>
      match evaluate fuel I st value with
      | (.error exc, st) => (.error exc, st)
      | (.ok v, st) =>
        match localsGet I.locals (.assign name value) with
        | some d =>
          match st.assignAt I.environment d name v with
          | some st => (.ok v, st)
          | none => (.error (.panicE "ancestor: unwrap of a missing link"), st)
        | none =>
          match st.envAssign (st.envs.length + 1) I.globals name v with
          | .error exc => (.error exc, st)
          | .ok st => (.ok v, st)
    | .call callee paren arguemnts =>
      match evaluate fuel I st callee with
      | (.error exc, st) => (.error exc, st)
      | (.ok calleeV, st) =>
        match evalArgs fuel I st arguemnts with
        | (.error exc, st) => (.error exc, st)
        | (.ok args, st) =>
          if !calleeV.is_fun then
            (.error (.rte paren.line "Can only call functions and classes."), st)
          else
            -- `downcast_to_lox_callable!`: a Function is used as-is, a Class
            -- is wrapped into a fresh callable
            let arity := calleeArity calleeV
            if args.length != arity then
              (.error (.rte paren.line
                ("Expected " ++ toString arity ++ " arguments but got " ++
                  toString args.length ++ ".\n")), st)
            else
              match calleeV with
              | .func _ (.fn f) => loxFunctionCall fuel f I st args
              | .func _ .clock =>
                -- the native `clock()`: the wall-time read is modelled as an
                -- unspecified constant; no theorem depends on its value
                (.ok (.number 0), st)
              | .cls c => loxClassCall fuel c I st args
              | _ => (.error (.panicE "unreachable"), st)
    | .get object name =>
      match evaluate fuel I st object with
      | (.error exc, st) => (.error exc, st)
      | (.ok o, st) =>
        match o with
        | .inst i => i.get name st
        | _ =>
          (.error (.rte name.line "Only instances have properties."), st)
    | .set object name value =>
      match evaluate fuel I st object with
      | (.error exc, st) => (.error exc, st)
      | (.ok o, st) =>
        match o with
        | .inst i =>
          match evaluate fuel I st value with
          | (.error exc, st) => (.error exc, st)
          | (.ok v, st) => (.ok v, i.set name v st)
        | _ => (.error (.rte name.line "Only instances have fields."), st)
    | .super_ keyword method =>
      match localsGet I.locals (.super_ keyword method) with
      | none => (.error (.panicE "locals.get(super_expr): unwrap of None"), st)
      | some distance =>
        match st.getAt I.environment distance "super" with
        | none => (.error (.panicE "get_at: unwrap of a missing binding"), st)
        | some superclassV =>
          match distance with
          | 0 => (.error (.panicE "usize underflow: distance - 1"), st)
          | d + 1 =>
            match st.getAt I.environment d "this" with
            | none =>
              (.error (.panicE "get_at: unwrap of a missing binding"), st)
            | some objectV =>
              match superclassV with
              | .cls superclass =>
                match superclass.find_method method.lexeme with
                | some m =>
                  match objectV with
                  | .inst i =>
                    let (bound, st) := m.bind i st
                    let id := st.nextFunId
                    (.ok (.func id (.fn bound)),
                      { st with nextFunId := id + 1 })
                  | _ => (.error (.panicE "downcast Instance"), st)
                | none =>
                  (.error (.rte method.line
                    ("Undefined property '" ++ method.lexeme ++ "'.")), st)
              | _ => (.error (.panicE "downcast Class"), st)

/-- Left-to-right argument evaluation of `visit_call_expr`, stopping at the
first thrown exception. -/
def evalArgs (fuel : Nat) (I : Interp) (st : Store) (es : List Expr) :
    (Except Exc (List Object)) × Store :=
  match fuel with
  | 0 => (.error (.panicE "fuel exhausted"), st)
  | fuel + 1 =>
    match es with
    | [] => (.ok [], st)
    | e :: rest =>
      match evaluate fuel I st e with
      | (.error exc, st) => (.error exc, st)
      | (.ok v, st) =>
        match evalArgs fuel I st rest with
        | (.error exc, st) => (.error exc, st)
        | (.ok vs, st) => (.ok (v :: vs), st)

/-- `Interpreter::execute` / the `stmt::Visit<()>` impl.  Returns the
possibly-thrown exception together with the interpreter (whose
`environment` field the block and class statements mutate) and the store. -/
def execute (fuel : Nat) (I : Interp) (st : Store) (s : Stmt) :
    (Except Exc Unit) × Interp × Store :=
  match fuel with
  | 0 => (.error (.panicE "fuel exhausted"), I, st)
  | fuel + 1 =>
    match s with
    | .expression e =>
      match evaluate fuel I st e with
      | (.error exc, st) => (.error exc, I, st)
      | (.ok _, st) => (.ok (), I, st)
    | .print e =>
      match evaluate fuel I st e with
      | (.error exc, st) => (.error exc, I, st)
      | (.ok v, st) =>
        (.ok (), I, { st with output := st.output ++ [stringify v] })
    | .varDecl name initializer =>
      match initializer with
      | some init =>
        match evaluate fuel I st init with
        | (.error exc, st) => (.error exc, I, st)
        | (.ok v, st) =>
          (.ok (), I, st.define I.environment name.lexeme (some v))
      | none =>
        (.ok (), I, st.define I.environment name.lexeme (some .null))
    | .block statements =>
      executeBlock fuel I st statements ⟨[], some I.environment⟩
    | .ifS condition thenBranch elseBranch =>
      match evaluate fuel I st condition with
      | (.error exc, st) => (.error exc, I, st)
      | (.ok c, st) =>
        if is_truthy c then execute fuel I st thenBranch
        else
          match elseBranch with
          | some e => execute fuel I st e
          | none => (.ok (), I, st)
    | .whileS condition body =>
      match evaluate fuel I st condition with
      | (.error exc, st) => (.error exc, I, st)
      | (.ok c, st) =>
        if is_truthy c then
          match execute fuel I st body with
          | (.error exc, I, st) => (.error exc, I, st)
          | (.ok _, I, st) => execute fuel I st (.whileS condition body)
        else (.ok (), I, st)
    | .function decl =>
      -- a fresh `Arc` wraps the new LoxFunction
      let f : LoxFunction := ⟨decl, I.environment, false⟩
      let id := st.nextFunId
      let st := { st with nextFunId := id + 1 }
      (.ok (), I,
        st.define I.environment decl.name.lexeme (some (.func id (.fn f))))
    | .ret _keyword value =>
      match value with
      | some v =>
        match evaluate fuel I st v with
        | (.error exc, st) => (.error exc, I, st)
        | (.ok obj, st) => (.error (.ret obj), I, st)
      | none => (.error (.ret .null), I, st)
    | .classS name superclassTok methods =>
      match superclassTok with
      | some supTok =>
        match evaluate fuel I st (.variable_ supTok) with
        | (.error exc, st) => (.error exc, I, st)
        | (.ok supV, st) =>
          if !supV.is_class then
            (.error (.rte supTok.line "Superclass must be a class."), I, st)
          else
            match supV with
            | .cls supC => finishClass fuel I st name (some supC) methods
            | _ => (.error (.panicE "unreachable"), I, st)
      | none => finishClass fuel I st name none methods

/-- The remainder of `visit_class_stmt` after the superclass check: define the
name as `None`, push a `super` frame when a superclass is present, build the
method map (each method closing over the current environment, `is_initializer`
iff it is named `init`), pop the `super` frame, and `assign` the class object
back. -/
def finishClass (fuel : Nat) (I : Interp) (st : Store) (name : Token)
    (superclass : Option LoxClass) (methods : List FunctionS) :
    (Except Exc Unit) × Interp × Store :=
  match fuel with
  | 0 => (.error (.panicE "fuel exhausted"), I, st)
  | _ + 1 =>
    let st := st.define I.environment name.lexeme none
    let (I2, st) :=
      match superclass with
      | some supC =>
        let (id, st) :=
          st.alloc ⟨[("super", some (.cls supC))], some I.environment⟩
        ({ I with environment := id }, st)
      | none => (I, st)
    let methodMap :=
      methods.foldl
        (fun acc m =>
          mapInsert acc m.name.lexeme
            (⟨m, I2.environment, m.name.lexeme == "init"⟩ : LoxFunction))
        []
    let class_ := LoxClass.mk name.lexeme methodMap superclass
    match superclass with
    | some _ =>
      match (st.frame I2.environment).enclosing with
      | none => (.error (.panicE "enclosing: unwrap of None"), I2, st)
      | some prev =>
        let I3 := { I2 with environment := prev }
        match st.envAssign (st.envs.length + 1) I3.environment name
            (.cls class_) with
        | .error exc => (.error exc, I3, st)
        | .ok st => (.ok (), I3, st)
    | none =>
      match st.envAssign (st.envs.length + 1) I2.environment name
          (.cls class_) with
      | .error exc => (.error exc, I2, st)
      | .ok st => (.ok (), I2, st)

/-- Sequential execution of a statement list, stopping at the first throw. -/
def executeStmts (fuel : Nat) (I : Interp) (st : Store) (ss : List Stmt) :
    (Except Exc Unit) × Interp × Store :=
  match fuel with
  | 0 => (.error (.panicE "fuel exhausted"), I, st)
  | fuel + 1 =>
    match ss with
    | [] => (.ok (), I, st)
    | s :: rest =>
      match execute fuel I st s with
      | (.error exc, I, st) => (.error exc, I, st)
      | (.ok _, I, st) => executeStmts fuel I st rest

/-- `Interpreter::execute_block` (`src/interpreter.rs`, lines 412-419): set
the current environment to the freshly allocated child frame, run the
statements, and restore the previous environment — but only on the normal
path: a thrown exception unwinds past the restore, leaving
`self.environment` at the child (or wherever the throw happened). -/
def executeBlock (fuel : Nat) (I : Interp) (st : Store) (statements : List Stmt)
    (environment : Frame) : (Except Exc Unit) × Interp × Store :=
  match fuel with
  | 0 => (.error (.panicE "fuel exhausted"), I, st)
  | fuel + 1 =>
    let previous := I.environment
    let (newId, st) := st.alloc environment
    let I := { I with environment := newId }
    match executeStmts fuel I st statements with
    | (.ok _, I, st) => (.ok (), { I with environment := previous }, st)
    | (.error exc, I, st) => (.error exc, I, st)

/-- `LoxFunction::call` (`src/interpreter/object/function.rs`, lines 57-88):
bind parameters to arguments (a `zip`) in a new frame enclosing the closure,
run the body on a **clone** of the interpreter inside `catch`, and translate
the outcome.  For an initializer every caught exception — a `return` unwind
**and** a runtime error alike — is replaced by `get_at(0, "this")` from the
closure; for a plain function a `ReturnException` yields its value, a
`RuntimeError` is rethrown, any other exception payload panics at the
`downcast`, and a genuine panic is resumed unconditionally. -/
def loxFunctionCall (fuel : Nat) (f : LoxFunction) (I : Interp) (st : Store)
    (arguemnts : List Object) : (Except Exc Object) × Store :=
  match fuel with
  | 0 => (.error (.panicE "fuel exhausted"), st)
  | fuel + 1 =>
    let frame : Frame :=
      ⟨(f.declaration.params.zip arguemnts).foldl
          (fun acc (p : Token × Object) => mapInsert acc p.1.lexeme (some p.2))
          [],
        some f.closure⟩
    -- `interpreter.clone()`: the clone's environment mutations are discarded,
    -- the shared store is not
    match executeBlock fuel I st f.declaration.body frame with
    | (.error exc, _, st) =>
      match exc with
      | .panicE p => (.error (.panicE p), st)
      | _ =>
        if f.is_initializer then
          match st.getAt f.closure 0 "this" with
          | some v => (.ok v, st)
          | none => (.error (.panicE "get_at(0, this): unwrap of None"), st)
        else
          match exc with
          | .ret v => (.ok v, st)
          | .rte line msg => (.error (.rte line msg), st)
          | _ => (.error (.panicE "downcast to RuntimeError failed"), st)
    | (.ok _, _, st) =>
      if f.is_initializer then
        match st.getAt f.closure 0 "this" with
        | some v => (.ok v, st)
        | none => (.error (.panicE "get_at(0, this): unwrap of None"), st)
      else (.ok .null, st)

/-- `LoxClass::call` (`src/interpreter/object/class.rs`, lines 56-69):
construct a fresh instance; if the chain has an `init` method, bind it to the
instance and invoke it with the arguments (discarding its result); the call
evaluates to the instance. -/
def loxClassCall (fuel : Nat) (c : LoxClass) (I : Interp) (st : Store)
    (arguemnts : List Object) : (Except Exc Object) × Store :=
  match fuel with
  | 0 => (.error (.panicE "fuel exhausted"), st)
  | fuel + 1 =>
    let (fid, st) := st.allocFields
    let inst : LoxInstance := ⟨c, fid⟩
    match c.find_method "init" with
    | some initializer =>
      let (bound, st) := initializer.bind inst st
      match loxFunctionCall fuel bound I st arguemnts with
      | (.error exc, st) => (.error exc, st)
      | (.ok _, st) => (.ok (.inst inst), st)
    | none => (.ok (.inst inst), st)

end

/-- `Interpreter::interpret`: execute the statements in order; a thrown
exception propagates to the driver. -/
def interpret (fuel : Nat) (I : Interp) (st : Store) (stmts : List Stmt) :
    (Except Exc Unit) × Interp × Store :=
  executeStmts fuel I st stmts

/-- `Interpreter::default()`: globals containing the native `clock`, current
environment = globals, empty side-table. -/
def initialStore : Store :=
  { envs := [⟨[("clock", some (.func 0 .clock))], none⟩]
    fields := []
    nextFunId := 1
    output := [] }

def initialInterp (locals : List (Expr × Nat)) : Interp :=
  { environment := 0, globals := 0, locals := locals }

/-! ## The resolver (`src/resolver.rs`) -/

/-- `FunctionType`. -/
inductive FunctionType where
  | NoneF | Function | Method | Initializer
deriving DecidableEq

/-- `ClassType`. -/
inductive ClassType where
  | NoneC | Class | SubClass
deriving DecidableEq

/-- The `Resolver` state: the scope stack (head = innermost, the end of the
source's `Vec`), the function/class context, the sticky error flag with the
reported messages, and the interpreter's `locals` side-table that
`Interpreter::resolve` fills in. -/
structure ResolverS where
  scopes : List (List (String × Bool))
  current_function : FunctionType
  current_class : ClassType
  had_error : Bool
  errors : List String
  locals : List (Expr × Nat)

def ResolverS.initial : ResolverS :=
  ⟨[], .NoneF, .NoneC, false, [], []⟩

/-- `Resolver::report_error`: print with the `at end` / `at 'LEX'` shape and
set the sticky flag. -/
def ResolverS.report_error (r : ResolverS) (token : Token) (message : String) :
    ResolverS :=
  let line :=
    if token.ttype == .EOF then
      "[line " ++ toString token.line ++ "] Error at end: " ++ message
    else
      "[line " ++ toString token.line ++ "] Error at '" ++ token.lexeme ++
        "': " ++ message
  { r with had_error := true, errors := r.errors ++ [line] }

def ResolverS.begin_scope (r : ResolverS) : ResolverS :=
  { r with scopes := [] :: r.scopes }

def ResolverS.end_scope (r : ResolverS) : ResolverS :=
  { r with scopes := r.scopes.tail }

/-- `Resolver::declare`: in the innermost scope (if any), report a
redeclaration, then insert the name as "declared but not defined". -/
def ResolverS.declare (r : ResolverS) (name : Token) : ResolverS :=
  match r.scopes with
  | [] => r
  | scope :: rest =>
    let r :=
      if (scope.lookup name.lexeme).isSome then
        r.report_error name "Already a variable with this name in this scope."
      else r
    { r with scopes := mapInsert scope name.lexeme false :: rest }

/-- `Resolver::define`: mark the name as initialized in the innermost scope. -/
def ResolverS.define (r : ResolverS) (name : Token) : ResolverS :=
  match r.scopes with
  | [] => r
  | scope :: rest => { r with scopes := mapInsert scope name.lexeme true :: rest }

/-- `Resolver::resolve_local` + `Interpreter::resolve`: scan the scope stack
innermost-outwards; on the first scope containing the name, insert the
(structurally keyed) expression into the side-table with that depth; record
nothing on a miss. -/
def ResolverS.resolve_local (r : ResolverS) (e : Expr) (name : Token) :
    ResolverS :=
  let rec go (scopes : List (List (String × Bool))) (depth : Nat) :
      Option Nat :=
    match scopes with
    | [] => none
    | scope :: rest =>
      if (scope.lookup name.lexeme).isSome then some depth
      else go rest (depth + 1)
  match go r.scopes 0 with
  | some depth => { r with locals := localsInsert r.locals e depth }
  | none => r

mutual

/-- The `expr::Visit<()>` impl of the resolver. -/
def resolveExpr (fuel : Nat) (r : ResolverS) (e : Expr) : ResolverS :=
  match fuel with
  | 0 => r
  | fuel + 1 =>
    match e with
    | .binary left _ right => resolveExpr fuel (resolveExpr fuel r left) right
    | .call callee _ args =>
      resolveExprs fuel (resolveExpr fuel r callee) args
    | .assign name value =>
      let r := resolveExpr fuel r value
      r.resolve_local (.assign name value) name
    | .grouping inner => resolveExpr fuel r inner
    | .literal _ => r
    | .logical left _ right => resolveExpr fuel (resolveExpr fuel r left) right
    | .unary _ right => resolveExpr fuel r right
    | .variable_ name =>
      let r :=
        match r.scopes with
        | [] => r
        | scope :: _ =>
          if scope.lookup name.lexeme == some false then
            r.report_error name
              "Can't read local variable in its own initializer."
          else r
      r.resolve_local (.variable_ name) name
    | .get object _ => resolveExpr fuel r object
    | .set object _ value =>
      resolveExpr fuel (resolveExpr fuel r value) object
    | .this keyword =>
      let r :=
        if r.current_class = .NoneC then
          r.report_error keyword "Can't use 'this' outside of a class."
        else r
      r.resolve_local (.this keyword) keyword
    | .super_ keyword method =>
      let r :=
        if r.current_class = .NoneC then
          r.report_error keyword "Can't use 'super' outside of a class.\n"
        else if r.current_class ≠ .SubClass then
          r.report_error keyword
            "Can't use 'super' in a class with no superclass.\n"
        else r
      r.resolve_local (.super_ keyword method) keyword

def resolveExprs (fuel : Nat) (r : ResolverS) (es : List Expr) : ResolverS :=
  match fuel with
  | 0 => r
  | fuel + 1 =>
    match es with
    | [] => r
    | e :: rest => resolveExprs fuel (resolveExpr fuel r e) rest

/-- The `stmt::Visit<()>` impl of the resolver. -/
def resolveStmt (fuel : Nat) (r : ResolverS) (s : Stmt) : ResolverS :=
  match fuel with
  | 0 => r
  | fuel + 1 =>
    match s with
    | .block statements =>
      ((resolveStmts fuel r.begin_scope statements)).end_scope
    | .expression e => resolveExpr fuel r e
    | .print e => resolveExpr fuel r e
    | .varDecl name initializer =>
      let r := r.declare name
      let r :=
        match initializer with
        | some init => resolveExpr fuel r init
        | none => r
      r.define name
    | .ifS condition thenBranch elseBranch =>
      let r := resolveStmt fuel (resolveExpr fuel r condition) thenBranch
      match elseBranch with
      | some e => resolveStmt fuel r e
      | none => r
    | .whileS condition body =>
      resolveStmt fuel (resolveExpr fuel r condition) body
    | .function decl =>
      let r := (r.declare decl.name).define decl.name
      resolveFunction fuel r decl .Function
    | .ret keyword value =>
      let r :=
        if r.current_function = .NoneF then
          r.report_error keyword "Can't return from top-level code.\n"
        else r
      match value with
      | some v =>
        let r :=
          if r.current_function = .Initializer then
            r.report_error keyword "Can't return a value from an initializer."
          else r
        resolveExpr fuel r v
      | none => r
    | .classS name superclass methods =>
      let enclosing_class := r.current_class
      let r := { r with current_class := .Class }
      let r := r.define name
      let r :=
        match superclass with
        | some supTok =>
          let r :=
            if name.lexeme == supTok.lexeme then
              r.report_error name "A class can't inherit from itself."
            else r
          let r := { r with current_class := .SubClass }
          resolveExpr fuel r (.variable_ supTok)
        | none => r
      let r :=
        if superclass.isSome then
          let r := r.begin_scope
          match r.scopes with
          | scope :: rest =>
            { r with scopes := mapInsert scope "super" true :: rest }
          | [] => r
        else r
      let r := r.begin_scope
      let r :=
        match r.scopes with
        | scope :: rest =>
          { r with scopes := mapInsert scope "this" true :: rest }
        | [] => r
      let r := resolveMethods fuel r methods
      let r := r.end_scope
      let r := if superclass.isSome then r.end_scope else r
      { r with current_class := enclosing_class }

def resolveMethods (fuel : Nat) (r : ResolverS) (methods : List FunctionS) :
    ResolverS :=
  match fuel with
  | 0 => r
  | fuel + 1 =>
    match methods with
    | [] => r
    | m :: rest =>
      let declaration : FunctionType :=
        if m.name.lexeme == "init" then .Initializer else .Method
      resolveMethods fuel (resolveFunction fuel r m declaration) rest

def resolveStmts (fuel : Nat) (r : ResolverS) (ss : List Stmt) : ResolverS :=
  match fuel with
  | 0 => r
  | fuel + 1 =>
    match ss with
    | [] => r
    | s :: rest => resolveStmts fuel (resolveStmt fuel r s) rest

/-- `Resolver::resolve_function`: swap `current_function`, a fresh scope with
the parameters declared+defined, resolve the body, restore. -/
def resolveFunction (fuel : Nat) (r : ResolverS) (decl : FunctionS)
    (ftype : FunctionType) : ResolverS :=
  match fuel with
  | 0 => r
  | fuel + 1 =>
    let enclosing_function := r.current_function
    let r := { r with current_function := ftype }
    let r := r.begin_scope
    let r := decl.params.foldl (fun r p => (r.declare p).define p) r
    let r := resolveStmts fuel r decl.body
    let r := r.end_scope
    { r with current_function := enclosing_function }

end

/-- The resolve-then-interpret pipeline of `Lox::run` (`src/lib.rs`), for
programs with no scan/parse/resolve errors: run the resolver to build the
side-table, then interpret with it. -/
def runResolved (fuel : Nat) (stmts : List Stmt) :
    (Except Exc Unit) × Interp × Store :=
  let r := resolveStmts fuel ResolverS.initial stmts
  interpret fuel (initialInterp r.locals) initialStore stmts

/-! ## The scanner (`src/scanner.rs`)

The source walks the UTF-8 bytes of the input (`source.as_bytes()[i] as
char`); the model walks a `List Char`, which agrees on the ASCII inputs used
in every theorem below. -/

/-- `Scanner::keywords`. -/
def keywords : List (String × TokenType) :=
  [("and", .AND), ("class", .CLASS), ("else", .ELSE), ("false", .FALSE),
   ("for", .FOR), ("fun", .FUN), ("if", .IF), ("nil", .NIL), ("or", .OR),
   ("print", .PRINT), ("return", .RETURN), ("super", .SUPER), ("this", .THIS),
   ("true", .TRUE), ("var", .VAR), ("while", .WHILE)]

/-- `char::is_lalpha` (the scanner's `Helper` trait): alphabetic or `_`. -/
def is_lalpha (c : Char) : Bool := c.isAlpha || c == '_'
/-- `char::is_ldigit`. -/
def is_ldigit (c : Char) : Bool := c.isDigit
/-- `char::is_lalpha_numeric`. -/
def is_lalpha_numeric (c : Char) : Bool := is_ldigit c || is_lalpha c

/-- The `Scanner` struct: cursor state, accumulated tokens, the sticky
`had_error` flag, plus the diagnostics written to stderr. -/
structure ScanState where
  source : List Char
  tokens : List Token
  start : Nat
  current : Nat
  line : Nat
  had_error : Bool
  errors : List String

def ScanState.new (code : List Char) : ScanState :=
  ⟨code, [], 0, 0, 1, false, []⟩

def ScanState.is_at_end (st : ScanState) : Bool :=
  st.current ≥ st.source.length

def ScanState.charAt (st : ScanState) (i : Nat) : Char :=
  st.source.getD i ' '

/-- `Scanner::advance`. -/
def ScanState.advance (st : ScanState) : Char × ScanState :=
  (st.charAt st.current, { st with current := st.current + 1 })

/-- `Scanner::peek`. -/
def ScanState.peek (st : ScanState) : Option Char :=
  if st.is_at_end then none else some (st.charAt st.current)

/-- `Scanner::peek_next`. -/
def ScanState.peek_next (st : ScanState) : Option Char :=
  if st.current + 1 ≥ st.source.length then none
  else some (st.charAt (st.current + 1))

/-- `Scanner::next_char_is`. -/
def ScanState.next_char_is (st : ScanState) (expected : Char) :
    Bool × ScanState :=
  if st.is_at_end then (false, st)
  else if st.charAt st.current != expected then (false, st)
  else (true, { st with current := st.current + 1 })

/-- The current lexeme, `source[start..current]`. -/
def ScanState.text (st : ScanState) : List Char :=
  (st.source.drop st.start).take (st.current - st.start)

/-- `Scanner::add_token`. -/
def ScanState.add_token (st : ScanState) (ttype : TokenType) : ScanState :=
  { st with
    tokens := st.tokens ++ [Token.new ttype (String.mk st.text) st.line] }

/-- `Scanner::add_token_with_literal`. -/
def ScanState.add_token_with_literal (st : ScanState) (ttype : TokenType)
    (literal : LitVal) : ScanState :=
  { st with
    tokens :=
      st.tokens ++ [⟨ttype, String.mk st.text, literal, st.line⟩] }

/-- The digit string as a natural number. -/
def digitsToNat (cs : List Char) : Nat :=
  cs.foldl (fun acc c => acc * 10 + (c.toNat - 48)) 0

/-- `str::parse::<f64>().unwrap()` on a lexeme of shape
`[0-9]+ ('.' [0-9]+)?`, as an exact rational. -/
def parseNumber (cs : List Char) : Rat :=
  let intPart := cs.takeWhile is_ldigit
  let rest := cs.dropWhile is_ldigit
  match rest with
  | '.' :: frac =>
    (digitsToNat intPart : Rat) +
      (digitsToNat frac : Rat) / ((10 : Rat) ^ frac.length)
  | _ => (digitsToNat intPart : Rat)

/-- The classification step at the end of `Scanner::identifier`. -/
def ScanState.finishIdentifier (st : ScanState) : ScanState :=
  let text := String.mk st.text
  let ttype := (keywords.lookup text).getD .IDENTIFIER
  st.add_token ttype

/-- `Scanner::identifier`: consume the alphanumeric tail, then classify the
lexeme through the keyword table.  `fuel` bounds the character loop. -/
def ScanState.identifier (st : ScanState) (fuel : Nat) : ScanState :=
  match fuel with
  | 0 => st
  | fuel + 1 =>
    match st.peek with
    | some c =>
      if is_lalpha_numeric c then
        ScanState.identifier { st with current := st.current + 1 } fuel
      else st.finishIdentifier
    | none => st.finishIdentifier

/-- The `while self.peek().is_ldigit()` loops of `Scanner::number`. -/
def ScanState.skipDigits (st : ScanState) (fuel : Nat) : ScanState :=
  match fuel with
  | 0 => st
  | fuel + 1 =>
    match st.peek with
    | some c =>
      if is_ldigit c then
        ScanState.skipDigits { st with current := st.current + 1 } fuel
      else st
    | none => st

/-- `Scanner::number`: integer digits, an optional fraction (a dot is only
consumed when followed by a digit), and the parsed payload. -/
def ScanState.number (st : ScanState) (fuel : Nat) : ScanState :=
  let st := st.skipDigits fuel
  let st :=
    if st.peek == some '.' &&
        (match st.peek_next with | some c => is_ldigit c | none => false) then
      -- `assert_eq!(self.advance(), '.')` then the fraction digits
      ScanState.skipDigits { st with current := st.current + 1 } fuel
    else st
  st.add_token_with_literal .NUMBER (.num (parseNumber st.text))

/-- `Scanner::string`: scan to the closing quote (newlines allowed and
counted); hitting the end of input reports `Unterminated string.` **and sets
`had_error`**; otherwise the payload is the text without the quotes. -/
def ScanState.string (st : ScanState) (fuel : Nat) : ScanState :=
  match fuel with
  | 0 => st
  | fuel + 1 =>
    if st.peek != some '"' && !st.is_at_end then
      let st :=
        if st.peek == some '\n' then { st with line := st.line + 1 } else st
      ScanState.string { st with current := st.current + 1 } fuel
    else if st.is_at_end then
      { st with
        errors := st.errors ++
          ["[line " ++ toString st.line ++ "] Error: Unterminated string."]
        had_error := true }
    else
      let st := { st with current := st.current + 1 }  -- the closing quote
      let value :=
        String.mk ((st.source.drop (st.start + 1)).take
          (st.current - 1 - (st.start + 1)))
      { st with
        tokens := st.tokens ++
          [⟨.STRING, String.mk st.text, .str value, st.line⟩] }

/-- The `//` comment loop of `scan_token`. -/
def ScanState.skipComment (st : ScanState) (fuel : Nat) : ScanState :=
  match fuel with
  | 0 => st
  | fuel + 1 =>
    if st.peek != some '\n' && !st.is_at_end then
      ScanState.skipComment { st with current := st.current + 1 } fuel
    else st

/-- `Scanner::scan_token` (`src/scanner.rs`, lines 65-117).  Note the final
arm: an unrecognized character reports
`[line N] Error: Unexpected character.` — and nothing else: the source does
**not** set `had_error` there. -/
def ScanState.scan_token (st : ScanState) (fuel : Nat) : ScanState :=
  let (c, st) := st.advance
  match c with
  | '(' => st.add_token .LEFT_PAREN
  | ')' => st.add_token .RIGHT_PAREN
  | '{' => st.add_token .LEFT_BRACE
  | '}' => st.add_token .RIGHT_BRACE
  | ',' => st.add_token .COMMA
  | '.' => st.add_token .DOT
  | '-' => st.add_token .MINUS
  | '+' => st.add_token .PLUS
  | ';' => st.add_token .SEMICOLON
  | '*' => st.add_token .STAR
  | '!' =>
    let (m, st) := st.next_char_is '='
    if m then st.add_token .BANG_EQUAL else st.add_token .BANG
  | '=' =>
    let (m, st) := st.next_char_is '='
    if m then st.add_token .EQUAL_EQUAL else st.add_token .EQUAL
  | '<' =>
    let (m, st) := st.next_char_is '='
    if m then st.add_token .LESS_EQUAL else st.add_token .LESS
  | '>' =>
    let (m, st) := st.next_char_is '='
    if m then st.add_token .GREATER_EQUAL else st.add_token .GREATER
  | '/' =>
    let (m, st) := st.next_char_is '/'
    if m then st.skipComment fuel else st.add_token .SLASH
  | ' ' => st
  | '\r' => st
  | '\t' => st
  | '\n' => { st with line := st.line + 1 }
  | '"' => st.string fuel
  | c =>
    if is_ldigit c then st.number fuel
    else if is_lalpha c then st.identifier fuel
    else
      { st with
        errors := st.errors ++
          ["[line " ++ toString st.line ++ "] Error: Unexpected character."] }

/-- The `while !is_at_end` loop of `Scanner::scan_tokens`. -/
def ScanState.scanLoop (st : ScanState) (fuel : Nat) : ScanState :=
  match fuel with
  | 0 => st
  | fuel + 1 =>
    if st.is_at_end then st
    else
      let st := { st with start := st.current }
      ScanState.scanLoop (st.scan_token (st.source.length + 1)) fuel

/-- `Scanner::scan_tokens`: scan everything and append the `EOF` token. -/
def scan_tokens (code : List Char) : ScanState :=
  let st := (ScanState.new code).scanLoop (code.length + 1)
  { st with tokens := st.tokens ++ [Token.new .EOF "" st.line] }

/-! ## The parser (`src/parser.rs`)

The `Parser`'s `current` cursor is an `Arc<AtomicUsize>` shared between the
parser and the clone that `declaration` runs inside `catch`, so cursor
progress survives a thrown parse error; the clone's plain `had_error` field
does not.  A thrown parse error is the `Except.error` case (carrying the
formatted message); the state travels alongside in both cases. -/

namespace Parser

/-- Parser state: the token vector, the shared cursor, the sticky error flag
and the diagnostics printed so far. -/
structure PState where
  tokens : List Token
  current : Nat
  had_error : Bool
  errors : List String

abbrev PRes (α : Type) := (Except String α) × PState

def dummyToken : Token := Token.new .EOF "" 0

def PState.peekT (st : PState) : Option Token :=
  st.tokens.get? st.current

/-- `Parser::peek().unwrap()` — the unwrap never fails on scanner output,
which always ends in `EOF`. -/
def PState.peekD (st : PState) : Token :=
  st.tokens.getD st.current dummyToken

def PState.previousT (st : PState) : Token :=
  st.tokens.getD (st.current - 1) dummyToken

def PState.is_at_end (st : PState) : Bool :=
  match st.peekT with
  | some t => t.ttype == .EOF
  | none => false

def PState.check (st : PState) (ttype : TokenType) : Bool :=
  if st.is_at_end then false else st.peekD.ttype == ttype

/-- `Parser::advance`: step the shared cursor (unless at `EOF`) and hand back
the token just consumed. -/
def PState.advance (st : PState) : Token × PState :=
  let st := if !st.is_at_end then { st with current := st.current + 1 } else st
  (st.previousT, st)

/-- `Parser::tmatch`: consume the first matching kind. -/
def PState.tmatch (st : PState) (types : List TokenType) : Bool × PState :=
  match types with
  | [] => (false, st)
  | t :: rest =>
    if st.check t then
      let (_, st) := st.advance
      (true, st)
    else st.tmatch rest

/-- `Parser::throw_error`: format the diagnostic and throw it as a `String`
exception (the printing happens at the catch in `declaration`). -/
def throw_error (token : Token) (message : String) : String :=
  if token.ttype == .EOF then
    "[line " ++ toString token.line ++ "] Error at end: " ++ message
  else
    "[line " ++ toString token.line ++ "] Error at '" ++ token.lexeme ++
      "': " ++ message

/-- `Parser::report_error`: print and set the sticky flag, without
throwing. -/
def PState.report_error (st : PState) (token : Token) (message : String) :
    PState :=
  { st with had_error := true,
            errors := st.errors ++ [throw_error token message] }

/-- `Parser::consume`: advance past the expected kind or throw. -/
def PState.consume (st : PState) (ttype : TokenType) (message : String) :
    PRes Token :=
  if st.check ttype then
    let (t, st) := st.advance
    (.ok t, st)
  else (.error (throw_error st.peekD message), st)

/-- The skip loop of `Parser::synchronize`. -/
def PState.syncLoop (st : PState) : Nat → PState
  | 0 => st
  | fuel + 1 =>
    if st.is_at_end then st
    else if st.previousT.ttype == .SEMICOLON then st
    else
      match st.peekD.ttype with
      | .CLASS | .FUN | .VAR | .FOR | .IF | .WHILE | .PRINT | .RETURN => st
      | _ =>
        let (_, st) := st.advance
        PState.syncLoop st fuel

/-- `Parser::synchronize`: skip to just after a `;` or just before a
statement keyword. -/
def PState.synchronize (st : PState) (fuel : Nat) : PState :=
  let (_, st) := st.advance
  st.syncLoop fuel

mutual

/-- `Parser::expression`. -/
def expression (fuel : Nat) (st : PState) : PRes Expr :=
  match fuel with
  | 0 => (.error "parser fuel exhausted", st)
  | fuel + 1 => assignment fuel st

/-- `Parser::assignment`: parse the LHS, and on `=` classify it as a
`Variable` (→ `Assign`) or `Get` (→ `Set`); anything else reports
`Invalid assignment target.` at the `=` and yields the LHS unchanged. -/
def assignment (fuel : Nat) (st : PState) : PRes Expr :=
  match fuel with
  | 0 => (.error "parser fuel exhausted", st)
  | fuel + 1 =>
    match orP fuel st with
    | (.error e, st) => (.error e, st)
    | (.ok expr, st) =>
      let (m, st) := st.tmatch [.EQUAL]
      if m then
        let equals := st.previousT
        match assignment fuel st with
        | (.error e, st) => (.error e, st)
        | (.ok value, st) =>
          match expr with
          | .variable_ name => (.ok (.assign name value), st)
          | .get object name => (.ok (.set object name value), st)
          | _ => (.ok expr, st.report_error equals "Invalid assignment target.")
      else (.ok expr, st)

/-- `Parser::or`. -/
def orP (fuel : Nat) (st : PState) : PRes Expr :=
  match fuel with
  | 0 => (.error "parser fuel exhausted", st)
  | fuel + 1 =>
    match andP fuel st with
    | (.error e, st) => (.error e, st)
    | (.ok expr, st) => orLoop fuel expr st

def orLoop (fuel : Nat) (expr : Expr) (st : PState) : PRes Expr :=
  match fuel with
  | 0 => (.error "parser fuel exhausted", st)
  | fuel + 1 =>
    let (m, st) := st.tmatch [.OR]
    if m then
      let operator := st.previousT
      match andP fuel st with
      | (.error e, st) => (.error e, st)
      | (.ok right, st) => orLoop fuel (.logical expr operator right) st
    else (.ok expr, st)

/-- `Parser::and`. -/
def andP (fuel : Nat) (st : PState) : PRes Expr :=
  match fuel with
  | 0 => (.error "parser fuel exhausted", st)
  | fuel + 1 =>
    match equality fuel st with
    | (.error e, st) => (.error e, st)
    | (.ok expr, st) => andLoop fuel expr st

def andLoop (fuel : Nat) (expr : Expr) (st : PState) : PRes Expr :=
  match fuel with
  | 0 => (.error "parser fuel exhausted", st)
  | fuel + 1 =>
    let (m, st) := st.tmatch [.AND]
    if m then
      let operator := st.previousT
      match equality fuel st with
      | (.error e, st) => (.error e, st)
      | (.ok right, st) => andLoop fuel (.logical expr operator right) st
    else (.ok expr, st)

/-- `Parser::equality`. -/
def equality (fuel : Nat) (st : PState) : PRes Expr :=
  match fuel with
  | 0 => (.error "parser fuel exhausted", st)
  | fuel + 1 =>
    match comparison fuel st with
    | (.error e, st) => (.error e, st)
    | (.ok expr, st) => equalityLoop fuel expr st

/-- The `while self.tmatch([BANG_EQUAL, EQUAL_EQUAL])` loop of `equality`. -/
def equalityLoop (fuel : Nat) (expr : Expr) (st : PState) : PRes Expr :=
  match fuel with
  | 0 => (.error "parser fuel exhausted", st)
  | fuel + 1 =>
    let (m, st) := st.tmatch [.BANG_EQUAL, .EQUAL_EQUAL]
    if m then
      let operator := st.previousT
      match comparison fuel st with
      | (.error e, st) => (.error e, st)
      | (.ok right, st) => equalityLoop fuel (.binary expr operator right) st
    else (.ok expr, st)

/-- `Parser::comparison`. -/
def comparison (fuel : Nat) (st : PState) : PRes Expr :=
  match fuel with
  | 0 => (.error "parser fuel exhausted", st)
  | fuel + 1 =>
    match term fuel st with
    | (.error e, st) => (.error e, st)
    | (.ok expr, st) => comparisonLoop fuel expr st

/-- The comparison-operator loop of `comparison`. -/
def comparisonLoop (fuel : Nat) (expr : Expr) (st : PState) : PRes Expr :=
  match fuel with
  | 0 => (.error "parser fuel exhausted", st)
  | fuel + 1 =>
    let (m, st) := st.tmatch [.GREATER, .GREATER_EQUAL, .LESS, .LESS_EQUAL]
    if m then
      let operator := st.previousT
      match term fuel st with
      | (.error e, st) => (.error e, st)
      | (.ok right, st) => comparisonLoop fuel (.binary expr operator right) st
    else (.ok expr, st)

/-- `Parser::term`. -/
def term (fuel : Nat) (st : PState) : PRes Expr :=
  match fuel with
  | 0 => (.error "parser fuel exhausted", st)
  | fuel + 1 =>
    match factor fuel st with
    | (.error e, st) => (.error e, st)
    | (.ok expr, st) => termLoop fuel expr st

/-- The `MINUS`/`PLUS` loop of `term`. -/
def termLoop (fuel : Nat) (expr : Expr) (st : PState) : PRes Expr :=
  match fuel with
  | 0 => (.error "parser fuel exhausted", st)
  | fuel + 1 =>
    let (m, st) := st.tmatch [.MINUS, .PLUS]
    if m then
      let operator := st.previousT
      match factor fuel st with
      | (.error e, st) => (.error e, st)
      | (.ok right, st) => termLoop fuel (.binary expr operator right) st
    else (.ok expr, st)

/-- `Parser::factor`. -/
def factor (fuel : Nat) (st : PState) : PRes Expr :=
  match fuel with
  | 0 => (.error "parser fuel exhausted", st)
  | fuel + 1 =>
    match unary fuel st with
    | (.error e, st) => (.error e, st)
    | (.ok expr, st) => factorLoop fuel expr st

/-- The `SLASH`/`STAR` loop of `factor`. -/
def factorLoop (fuel : Nat) (expr : Expr) (st : PState) : PRes Expr :=
  match fuel with
  | 0 => (.error "parser fuel exhausted", st)
  | fuel + 1 =>
    let (m, st) := st.tmatch [.SLASH, .STAR]
    if m then
      let operator := st.previousT
      match unary fuel st with
      | (.error e, st) => (.error e, st)
      | (.ok right, st) => factorLoop fuel (.binary expr operator right) st
    else (.ok expr, st)

/-- `Parser::unary`. -/
def unary (fuel : Nat) (st : PState) : PRes Expr :=
  match fuel with
  | 0 => (.error "parser fuel exhausted", st)
  | fuel + 1 =>
    let (m, st) := st.tmatch [.BANG, .MINUS]
    if m then
      let operator := st.previousT
      match unary fuel st with
      | (.error e, st) => (.error e, st)
      | (.ok right, st) => (.ok (.unary operator right), st)
    else callP fuel st

/-- `Parser::call`: a `primary` followed by any mix of `(args)` and
`.name`. -/
def callP (fuel : Nat) (st : PState) : PRes Expr :=
  match fuel with
  | 0 => (.error "parser fuel exhausted", st)
  | fuel + 1 =>
    match primary fuel st with
    | (.error e, st) => (.error e, st)
    | (.ok expr, st) => callLoop fuel expr st

def callLoop (fuel : Nat) (expr : Expr) (st : PState) : PRes Expr :=
  match fuel with
  | 0 => (.error "parser fuel exhausted", st)
  | fuel + 1 =>
    let (m, st) := st.tmatch [.LEFT_PAREN]
    if m then
      match finish_call fuel expr st with
      | (.error e, st) => (.error e, st)
      | (.ok expr, st) => callLoop fuel expr st
    else
      let (m, st) := st.tmatch [.DOT]
      if m then
        match st.consume .IDENTIFIER "Expect property name after '.'." with
        | (.error e, st) => (.error e, st)
        | (.ok name, st) => callLoop fuel (.get expr name) st
      else (.ok expr, st)

/-- `Parser::finish_call` (`src/parser.rs`, lines 514-534): collect the
arguments; at the comma before the 256th argument **throw**
`Can't have more than 255 arguments.` (the source calls `throw_error`, not
`report_error`, so the list — and the enclosing declaration — is
abandoned). -/
def finish_call (fuel : Nat) (callee : Expr) (st : PState) : PRes Expr :=
  match fuel with
  | 0 => (.error "parser fuel exhausted", st)
  | fuel + 1 =>
    let collect :=
      if !st.check .RIGHT_PAREN then
        match expression fuel st with
        | (.error e, st) => (.error e, st)
        | (.ok first, st) => argLoop fuel [first] st
      else ((.ok [] : Except String (List Expr)), st)
    match collect with
    | (.error e, st) => (.error e, st)
    | (.ok arguemnts, st) =>
      match st.consume .RIGHT_PAREN "Expect ')' after arguments." with
      | (.error e, st) => (.error e, st)
      | (.ok paren, st) => (.ok (.call callee paren arguemnts), st)

/-- The `while self.tmatch(COMMA)` loop of `finish_call`, carrying the
arguments collected so far. -/
def argLoop (fuel : Nat) (acc : List Expr) (st : PState) : PRes (List Expr) :=
  match fuel with
  | 0 => (.error "parser fuel exhausted", st)
  | fuel + 1 =>
    let (m, st) := st.tmatch [.COMMA]
    if m then
      if acc.length ≥ 255 then
        (.error (throw_error st.peekD "Can't have more than 255 arguments."), st)
      else
        match expression fuel st with
        | (.error e, st) => (.error e, st)
        | (.ok a, st) => argLoop fuel (acc ++ [a]) st
    else (.ok acc, st)

/-- `Parser::primary`. -/
def primary (fuel : Nat) (st : PState) : PRes Expr :=
  match fuel with
  | 0 => (.error "parser fuel exhausted", st)
  | fuel + 1 =>
    let (m, st) := st.tmatch [.FALSE]
    if m then (.ok (.literal (.bool false)), st) else
    let (m, st) := st.tmatch [.TRUE]
    if m then (.ok (.literal (.bool true)), st) else
    let (m, st) := st.tmatch [.NIL]
    if m then (.ok (.literal .null), st) else
    let (m, st) := st.tmatch [.NUMBER, .STRING]
    if m then (.ok (.literal st.previousT.literal), st) else
    let (m, st) := st.tmatch [.SUPER]
    if m then
      let keyword := st.previousT
      match st.consume .DOT "Expect '.' after 'super'." with
      | (.error e, st) => (.error e, st)
      | (.ok _, st) =>
        match st.consume .IDENTIFIER "Expect superclass method name." with
        | (.error e, st) => (.error e, st)
        | (.ok method, st) => (.ok (.super_ keyword method), st)
    else
    let (m, st) := st.tmatch [.THIS]
    if m then (.ok (.this st.previousT), st) else
    let (m, st) := st.tmatch [.IDENTIFIER]
    if m then (.ok (.variable_ st.previousT), st) else
    let (m, st) := st.tmatch [.LEFT_PAREN]
    if m then
      match expression fuel st with
      | (.error e, st) => (.error e, st)
      | (.ok expr, st) =>
        match st.consume .RIGHT_PAREN "Expect ')' after expression." with
        | (.error e, st) => (.error e, st)
        | (.ok _, st) => (.ok (.grouping expr), st)
    else (.error (throw_error st.peekD "Expect expression."), st)

/-- `Parser::statement`. -/
def statement (fuel : Nat) (st : PState) : PRes Stmt :=
  match fuel with
  | 0 => (.error "parser fuel exhausted", st)
  | fuel + 1 =>
    let (m, st) := st.tmatch [.FOR]
    if m then forStatement fuel st else
    let (m, st) := st.tmatch [.IF]
    if m then ifStatement fuel st else
    let (m, st) := st.tmatch [.PRINT]
    if m then printStatement fuel st else
    let (m, st) := st.tmatch [.RETURN]
    if m then returnStatement fuel st else
    let (m, st) := st.tmatch [.WHILE]
    if m then whileStatement fuel st else
    let (m, st) := st.tmatch [.LEFT_BRACE]
    if m then
      match block fuel st with
      | (.error e, st) => (.error e, st)
      | (.ok statements, st) => (.ok (.block statements), st)
    else expressionStatement fuel st

/-- `Parser::print_statement`. -/
def printStatement (fuel : Nat) (st : PState) : PRes Stmt :=
  match fuel with
  | 0 => (.error "parser fuel exhausted", st)
  | fuel + 1 =>
    match expression fuel st with
    | (.error e, st) => (.error e, st)
    | (.ok value, st) =>
      match st.consume .SEMICOLON "Expect ';' after value." with
      | (.error e, st) => (.error e, st)
      | (.ok _, st) => (.ok (.print value), st)

/-- `Parser::expression_statement`. -/
def expressionStatement (fuel : Nat) (st : PState) : PRes Stmt :=
  match fuel with
  | 0 => (.error "parser fuel exhausted", st)
  | fuel + 1 =>
    match expression fuel st with
    | (.error e, st) => (.error e, st)
    | (.ok expr, st) =>
      match st.consume .SEMICOLON "Expect ';' after expression." with
      | (.error e, st) => (.error e, st)
      | (.ok _, st) => (.ok (.expression expr), st)

/-- `Parser::var_declaration`. -/
def varDeclaration (fuel : Nat) (st : PState) : PRes Stmt :=
  match fuel with
  | 0 => (.error "parser fuel exhausted", st)
  | fuel + 1 =>
    match st.consume .IDENTIFIER "Expect variable name." with
    | (.error e, st) => (.error e, st)
    | (.ok name, st) =>
      let (m, st) := st.tmatch [.EQUAL]
      let init :=
        if m then
          match expression fuel st with
          | (.error e, st) => (.error e, st)
          | (.ok e, st) => (.ok (some e), st)
        else ((.ok none : Except String (Option Expr)), st)
      match init with
      | (.error e, st) => (.error e, st)
      | (.ok initializer, st) =>
        match st.consume .SEMICOLON "Expect ; after variable declaration." with
        | (.error e, st) => (.error e, st)
        | (.ok _, st) => (.ok (.varDecl name initializer), st)

/-- `Parser::block`: declarations until `}` (each error recovered inside
`declaration`), then the closing brace. -/
def block (fuel : Nat) (st : PState) : PRes (List Stmt) :=
  match fuel with
  | 0 => (.error "parser fuel exhausted", st)
  | fuel + 1 =>
    match blockLoop fuel [] st with
    | (.error e, st) => (.error e, st)
    | (.ok statements, st) =>
      match st.consume .RIGHT_BRACE "Expect '\x7d' after block." with
      | (.error e, st) => (.error e, st)
      | (.ok _, st) => (.ok statements, st)

def blockLoop (fuel : Nat) (acc : List Stmt) (st : PState) :
    PRes (List Stmt) :=
  match fuel with
  | 0 => (.error "parser fuel exhausted", st)
  | fuel + 1 =>
    if !st.check .RIGHT_BRACE && !st.is_at_end then
      match declaration fuel st with
      | (some s, st) => blockLoop fuel (acc ++ [s]) st
      | (none, st) => blockLoop fuel acc { st with had_error := true }
    else (.ok acc, st)

/-- `Parser::if_statement`. -/
def ifStatement (fuel : Nat) (st : PState) : PRes Stmt :=
  match fuel with
  | 0 => (.error "parser fuel exhausted", st)
  | fuel + 1 =>
    match st.consume .LEFT_PAREN "Expect '(' after 'if'." with
    | (.error e, st) => (.error e, st)
    | (.ok _, st) =>
      match expression fuel st with
      | (.error e, st) => (.error e, st)
      | (.ok condition, st) =>
        match st.consume .RIGHT_PAREN "Expect ')' after if condition." with
        | (.error e, st) => (.error e, st)
        | (.ok _, st) =>
          match statement fuel st with
          | (.error e, st) => (.error e, st)
          | (.ok thenBranch, st) =>
            let (m, st) := st.tmatch [.ELSE]
            if m then
              match statement fuel st with
              | (.error e, st) => (.error e, st)
              | (.ok elseBranch, st) =>
                (.ok (.ifS condition thenBranch (some elseBranch)), st)
            else (.ok (.ifS condition thenBranch none), st)

/-- `Parser::while_statement`. -/
def whileStatement (fuel : Nat) (st : PState) : PRes Stmt :=
  match fuel with
  | 0 => (.error "parser fuel exhausted", st)
  | fuel + 1 =>
    match st.consume .LEFT_PAREN "Expect '(' after 'while'" with
    | (.error e, st) => (.error e, st)
    | (.ok _, st) =>
      match expression fuel st with
      | (.error e, st) => (.error e, st)
      | (.ok condition, st) =>
        match st.consume .RIGHT_PAREN "Expect ')' after condition" with
        | (.error e, st) => (.error e, st)
        | (.ok _, st) =>
          match statement fuel st with
          | (.error e, st) => (.error e, st)
          | (.ok body, st) => (.ok (.whileS condition body), st)

/-- `Parser::for_statement`: parse the three clauses and desugar into
blocks and a `while`. -/
def forStatement (fuel : Nat) (st : PState) : PRes Stmt :=
  match fuel with
  | 0 => (.error "parser fuel exhausted", st)
  | fuel + 1 =>
    match st.consume .LEFT_PAREN "Expect '(' after 'for'" with
    | (.error e, st) => (.error e, st)
    | (.ok _, st) =>
      let initRes :=
        let (m, st) := st.tmatch [.SEMICOLON]
        if m then ((.ok none : Except String (Option Stmt)), st)
        else
          let (m, st) := st.tmatch [.VAR]
          if m then
            match varDeclaration fuel st with
            | (.error e, st) => (.error e, st)
            | (.ok s, st) => (.ok (some s), st)
          else
            match expressionStatement fuel st with
            | (.error e, st) => (.error e, st)
            | (.ok s, st) => (.ok (some s), st)
      match initRes with
      | (.error e, st) => (.error e, st)
      | (.ok initializer, st) =>
        let condRes :=
          if !st.check .SEMICOLON then
            match expression fuel st with
            | (.error e, st) => (.error e, st)
            | (.ok e, st) => (.ok (some e), st)
          else ((.ok none : Except String (Option Expr)), st)
        match condRes with
        | (.error e, st) => (.error e, st)
        | (.ok condition, st) =>
          match st.consume .SEMICOLON "Expect ';' after loop condition." with
          | (.error e, st) => (.error e, st)
          | (.ok _, st) =>
            let incRes :=
              if !st.check .RIGHT_PAREN then
                match expression fuel st with
                | (.error e, st) => (.error e, st)
                | (.ok e, st) => (.ok (some e), st)
              else ((.ok none : Except String (Option Expr)), st)
            match incRes with
            | (.error e, st) => (.error e, st)
            | (.ok increment, st) =>
              match st.consume .RIGHT_PAREN "Expect ')' after clauses." with
              | (.error e, st) => (.error e, st)
              | (.ok _, st) =>
                match statement fuel st with
                | (.error e, st) => (.error e, st)
                | (.ok body, st) =>
                  let body :=
                    match increment with
                    | some inc => Stmt.block [body, .expression inc]
                    | none => body
                  let condition :=
                    condition.getD (.literal (.bool true))
                  let body := Stmt.whileS condition body
                  let body :=
                    match initializer with
                    | some init => Stmt.block [init, body]
                    | none => body
                  (.ok body, st)

/-- `Parser::function` (`src/parser.rs`, lines 536-568): name, parameter
list (the comma before the 256th parameter **throws**
`Can't have more than 255 parameters.`), and body. -/
def functionP (fuel : Nat) (kind : String) (st : PState) : PRes FunctionS :=
  match fuel with
  | 0 => (.error "parser fuel exhausted", st)
  | fuel + 1 =>
    match st.consume .IDENTIFIER ("Expect " ++ kind ++ " name.") with
    | (.error e, st) => (.error e, st)
    | (.ok name, st) =>
      match st.consume .LEFT_PAREN ("Expect '(' after " ++ kind ++ " name.") with
      | (.error e, st) => (.error e, st)
      | (.ok _, st) =>
        let collect :=
          if !st.check .RIGHT_PAREN then
            match st.consume .IDENTIFIER "Expect parameter name." with
            | (.error e, st) => (.error e, st)
            | (.ok p, st) => paramLoop fuel [p] st
          else ((.ok [] : Except String (List Token)), st)
        match collect with
        | (.error e, st) => (.error e, st)
        | (.ok params, st) =>
          match st.consume .RIGHT_PAREN "Expect ')' after parameters." with
          | (.error e, st) => (.error e, st)
          | (.ok _, st) =>
            match st.consume .LEFT_BRACE
                ("Expect '\x7b' before " ++ kind ++ " body.") with
            | (.error e, st) => (.error e, st)
            | (.ok _, st) =>
              match block fuel st with
              | (.error e, st) => (.error e, st)
              | (.ok body, st) => (.ok (.mk name params body), st)

/-- The parameter-list loop of `Parser::function`. -/
def paramLoop (fuel : Nat) (acc : List Token) (st : PState) :
    PRes (List Token) :=
  match fuel with
  | 0 => (.error "parser fuel exhausted", st)
  | fuel + 1 =>
    let (m, st) := st.tmatch [.COMMA]
    if m then
      if acc.length ≥ 255 then
        (.error (throw_error st.peekD "Can't have more than 255 parameters."),
          st)
      else
        match st.consume .IDENTIFIER "Expect parameter name." with
        | (.error e, st) => (.error e, st)
        | (.ok p, st) => paramLoop fuel (acc ++ [p]) st
    else (.ok acc, st)

/-- `Parser::return_statement`. -/
def returnStatement (fuel : Nat) (st : PState) : PRes Stmt :=
  match fuel with
  | 0 => (.error "parser fuel exhausted", st)
  | fuel + 1 =>
    let keyword := st.previousT
    let valRes :=
      if !st.check .SEMICOLON then
        match expression fuel st with
        | (.error e, st) => (.error e, st)
        | (.ok e, st) => (.ok (some e), st)
      else ((.ok none : Except String (Option Expr)), st)
    match valRes with
    | (.error e, st) => (.error e, st)
    | (.ok value, st) =>
      match st.consume .SEMICOLON "Expect ';' after return value." with
      | (.error e, st) => (.error e, st)
      | (.ok _, st) => (.ok (.ret keyword value), st)

/-- `Parser::class_declaration`. -/
def classDeclaration (fuel : Nat) (st : PState) : PRes Stmt :=
  match fuel with
  | 0 => (.error "parser fuel exhausted", st)
  | fuel + 1 =>
    match st.consume .IDENTIFIER "Expect class name" with
    | (.error e, st) => (.error e, st)
    | (.ok name, st) =>
      let supRes :=
        let (m, st) := st.tmatch [.LESS]
        if m then
          match st.consume .IDENTIFIER "Expect superclass name." with
          | (.error e, st) => ((.error e : Except String (Option Token)), st)
          | (.ok _, st) => (.ok (some st.previousT), st)
        else ((.ok none : Except String (Option Token)), st)
      match supRes with
      | (.error e, st) => (.error e, st)
      | (.ok superclass, st) =>
        match st.consume .LEFT_BRACE "Expect '\x7b' before class body." with
        | (.error e, st) => (.error e, st)
        | (.ok _, st) =>
          match methodLoop fuel [] st with
          | (.error e, st) => (.error e, st)
          | (.ok methods, st) =>
            match st.consume .RIGHT_BRACE "Expect '\x7d' after class body." with
            | (.error e, st) => (.error e, st)
            | (.ok _, st) => (.ok (.classS name superclass methods), st)

def methodLoop (fuel : Nat) (acc : List FunctionS) (st : PState) :
    PRes (List FunctionS) :=
  match fuel with
  | 0 => (.error "parser fuel exhausted", st)
  | fuel + 1 =>
    if !st.check .RIGHT_BRACE && !st.is_at_end then
      match functionP fuel "method" st with
      | (.error e, st) => (.error e, st)
      | (.ok m, st) => methodLoop fuel (acc ++ [m]) st
    else (.ok acc, st)

/-- `Parser::declaration` (`src/parser.rs`, lines 293-325): run the
declaration body on a clone inside `catch`; on a thrown parse error the
clone's `had_error` progress is dropped (the shared cursor's progress is
not), the message is printed, and the parser synchronizes, yielding
`None`. -/
def declaration (fuel : Nat) (st : PState) : Option Stmt × PState :=
  match fuel with
  | 0 => (none, st)
  | fuel + 1 =>
    let saved_had_error := st.had_error
    match declBody fuel st with
    | (.ok stmt, st) => (some stmt, st)
    | (.error msg, st) =>
      let st := { st with had_error := saved_had_error,
                          errors := st.errors ++ [msg] }
      (none, st.synchronize fuel)

/-- The closure `declaration` passes to `catch`: dispatch on the leading
keyword. -/
def declBody (fuel : Nat) (st : PState) : PRes Stmt :=
  match fuel with
  | 0 => (.error "parser fuel exhausted", st)
  | fuel + 1 =>
    let (m, st) := st.tmatch [.CLASS]
    if m then classDeclaration fuel st else
    let (m, st) := st.tmatch [.FUN]
    if m then
      match functionP fuel "function" st with
      | (.error e, st) => (.error e, st)
      | (.ok f, st) => (.ok (.function f), st)
    else
    let (m, st) := st.tmatch [.VAR]
    if m then varDeclaration fuel st
    else statement fuel st

end

end Parser

/-! ## Concrete fixtures used by the theorems below -/

/-- A class named `C` with no methods and no superclass. -/
def classC : LoxClass := ⟨"C", [], none⟩

def plusTok : Token := Token.new .PLUS "+" 1
def retTok : Token := Token.new .RETURN "return" 1
def initTok : Token := Token.new .IDENTIFIER "init" 1

/-- A body whose execution raises a runtime error: `1 + "a";`. -/
def runtimeErrBody : List Stmt :=
  [Stmt.expression (.binary (.literal (.num 1)) plusTok (.literal (.str "a")))]

/-- An `init` declaration with the runtime-erroring body. -/
def initDeclC1 : FunctionS := .mk initTok [] runtimeErrBody

/-- A store whose only environment binds `this` to an instance of `C` (the
closure a bound initializer sees). -/
def stC1 : Store :=
  { envs := [⟨[("this", some (.inst ⟨classC, 0⟩))], none⟩]
    fields := [[]]
    nextFunId := 0
    output := [] }

def interpC1 : Interp := ⟨0, 0, []⟩

/-- The erroring function, as an initializer or as a plain function. -/
def fnC1 (isInit : Bool) : LoxFunction := ⟨initDeclC1, 0, isInit⟩

/-- An `init() { return; }` declaration and a class `B` carrying it. -/
def bareReturnInit : FunctionS := .mk initTok [] [Stmt.ret retTok none]
def classB : LoxClass := ⟨"B", [("init", ⟨bareReturnInit, 0, true⟩)], none⟩

def thisTok : Token := Token.new .THIS "this" 1
def pTok : Token := Token.new .IDENTIFIER "p" 1
def fldTok : Token := Token.new .IDENTIFIER "f" 1

/-- `init(p) { this.f = p; }` and a class `P` carrying it. -/
def settingInit : FunctionS :=
  .mk initTok [pTok] [Stmt.expression (.set (.this thisTok) fldTok (.variable_ pTok))]
def classP : LoxClass := ⟨"P", [("init", ⟨settingInit, 0, true⟩)], none⟩

/-- The side-table entries the resolver would record for `settingInit`'s body:
`this` one frame up (past the parameter frame), `p` in the parameter frame. -/
def interpP : Interp :=
  ⟨0, 0, [(Expr.this thisTok, 1), (Expr.variable_ pTok, 0)]⟩

def I0 : Interp := initialInterp []
def xTok : Token := Token.new .IDENTIFIER "x" 1

/-- The one-line program `{ var x = 1; print x; { print x; } }`: two textual
occurrences of `x`, structurally identical (same lexeme, same line), at
depths 0 and 1. -/
def c4Prog : List Stmt :=
  [Stmt.block
    [Stmt.varDecl xTok (some (.literal (.num 1))),
     Stmt.print (.variable_ xTok),
     Stmt.block [Stmt.print (.variable_ xTok)]]]

/-- A second class also named `C`, with a method, so it is a different class
value than `classC`. -/
def classCprime : LoxClass := ⟨"C", [("m", ⟨bareReturnInit, 0, false⟩)], none⟩

/-- `core::mem::discriminant`, as the `Hash` impl of `Object` uses: the
variant tag alone. -/
def Object.kindIdx : Object → Nat
  | .number _ => 0
  | .str _ => 1
  | .bool _ => 2
  | .func _ _ => 3
  | .cls _ => 4
  | .inst _ => 5
  | .null => 6

def rparenTok : Token := Token.new .RIGHT_PAREN ")" 1
def gTok : Token := Token.new .IDENTIFIER "g" 1

/-- `fun g() {}` as a runtime function value of arity 0. -/
def gFn : LoxFunction := ⟨.mk gTok [] [], 0, false⟩

/-- Globals binding `g` to that function. -/
def stC8 : Store :=
  { envs := [⟨[("g", some (.func 0 (.fn gFn)))], none⟩]
    fields := []
    nextFunId := 1
    output := [] }

/-- `g(1)` — one argument against arity 0. -/
def c8Expr : Expr := .call (.variable_ gTok) rparenTok [.literal (.num 1)]

def superTok : Token := Token.new .SUPER "super" 1
def mTok : Token := Token.new .IDENTIFIER "m" 1
def nopeTok : Token := Token.new .IDENTIFIER "nope" 1

/-- A superclass `A` with a method `m`, and a subclass `Sub` that also
defines `m` (the override that `super.m` must skip). -/
def mDeclA : FunctionS := .mk mTok [] []
def mDeclSub : FunctionS := .mk mTok [] [Stmt.ret retTok none]
def classA9 : LoxClass := ⟨"A", [("m", ⟨mDeclA, 0, false⟩)], none⟩
def classSub9 : LoxClass := ⟨"Sub", [("m", ⟨mDeclSub, 0, false⟩)], some classA9⟩

/-- The environment layout inside a `Sub` method body: globals ← the `super`
frame ← the `this` frame ← the call frame. -/
def stC9 : Store :=
  { envs :=
      [⟨[], none⟩,
       ⟨[("super", some (.cls classA9))], some 0⟩,
       ⟨[("this", some (.inst ⟨classSub9, 0⟩))], some 1⟩,
       ⟨[], some 2⟩]
    fields := [[]]
    nextFunId := 0
    output := [] }

/-- Side-table entries for `super.m` and `super.nope`, both at depth 2. -/
def interpC9 : Interp :=
  ⟨3, 0, [(Expr.super_ superTok mTok, 2), (Expr.super_ superTok nopeTok, 2)]⟩

/-- Globals binding `x` to 1, for observing that a failed `Set` never runs
its right-hand side. -/
def stC10 : Store :=
  { envs := [⟨[("x", some (.number 1))], none⟩]
    fields := []
    nextFunId := 0
    output := [] }

/-- `3.f = (x = 2)` — a `Set` whose receiver is not an instance and whose
right-hand side has a side effect. -/
def c10Expr : Expr := .set (.literal (.num 3)) fldTok (.assign xTok (.literal (.num 2)))

/-! ## The claims -/

/-- C1: the claim says a runtime error raised inside an initializer's body
propagates to the caller and is not converted into a normal result.  The code
contradicts it: `LoxFunction::call` catches every exception and, when
`is_initializer` holds, answers `this` from the closure — swallowing the
runtime error.  At the failing input `init() { 1 + "a"; }` (whose body throws
`Operands must be two numbers or two strings.`), the same body called as a
plain function rethrows the runtime error, but called as an initializer it
returns the bound instance as a normal result. -/
theorem initializer_swallows_runtime_error :
    (loxFunctionCall 10 (fnC1 false) interpC1 stC1 []).1 =
      .error (.rte 1 "Operands must be two numbers or two strings.") ∧
    (loxFunctionCall 10 (fnC1 true) interpC1 stC1 []).1 =
      .ok (.inst ⟨classC, 0⟩) :=
  ⟨rfl, rfl⟩

/-- C3: the claim says `execute_block` restores the previous environment on
every exit path.  The code only restores on normal completion: on a `return`
unwind and on a runtime-error unwind the throw skips the
`self.environment = previous` line, leaving the interpreter's environment at
the child frame (id 1 here; the previous environment is id 0). -/
theorem execute_block_skips_restore_on_unwind :
    ((executeBlock 10 I0 initialStore [Stmt.expression (.literal (.num 1))]
        ⟨[], some 0⟩).2.1.environment = 0) ∧
    (executeBlock 10 I0 initialStore [Stmt.ret retTok none] ⟨[], some 0⟩).1 =
      .error (.ret .null) ∧
    ((executeBlock 10 I0 initialStore [Stmt.ret retTok none]
        ⟨[], some 0⟩).2.1.environment = 1) ∧
    (executeBlock 10 I0 initialStore runtimeErrBody ⟨[], some 0⟩).1 =
      .error (.rte 1 "Operands must be two numbers or two strings.") ∧
    ((executeBlock 10 I0 initialStore runtimeErrBody
        ⟨[], some 0⟩).2.1.environment = 1) :=
  ⟨rfl, rfl, rfl, rfl, rfl⟩

/-- C4: the claim says the side-table keys each occurrence by node identity,
so two same-named occurrences at different depths each read their own depth.
The code keys the `HashMap` by the **derived structural** equality of `Expr`:
in `{ var x = 1; print x; { print x; } }` (one line) the two `print x` nodes
are structurally equal, the second `resolve` overwrites the first's depth
(the table ends with the single entry `depth 1`), and running the program
panics at `get_at`'s unwrap (the first read walks to the globals, which have
no `x`) instead of printing `1` twice. -/
theorem resolver_locals_structural_collision :
    (resolveStmts 100 ResolverS.initial c4Prog).locals =
      [(Expr.variable_ xTok, 1)] ∧
    (runResolved 100 c4Prog).1 =
      .error (.panicE "get_at: unwrap of a missing binding") ∧
    (runResolved 100 c4Prog).2.2.output = [] :=
  ⟨rfl, rfl, rfl⟩

/-- C7: the claim says both an unrecognized character and an unterminated
string set the scanner's `had_error` flag.  The code reports the
unrecognized character (and keeps scanning — the `;` after the `@` is still
tokenized) but never sets `had_error` there; only the unterminated string
does. -/
theorem scanner_unexpected_char_skips_had_error :
    (scan_tokens "@;".toList).had_error = false ∧
    (scan_tokens "@;".toList).errors =
      ["[line 1] Error: Unexpected character."] ∧
    (scan_tokens "@;".toList).tokens =
      [Token.new .SEMICOLON ";" 1, Token.new .EOF "" 1] ∧
    (scan_tokens "\"ab".toList).had_error = true ∧
    (scan_tokens "\"ab".toList).errors =
      ["[line 1] Error: Unterminated string."] :=
  ⟨rfl, rfl, rfl, rfl, rfl⟩

/-- C2: calling a class constructs a fresh instance (field map id =
`st.fields.length`, the next free cell of the field arena) of that class, and
whatever the `init` invocation does — `return;` included — a successful call
evaluates to that instance. -/
theorem class_call_returns_fresh_instance (fuel : Nat) (c : LoxClass)
    (I : Interp) (st : Store) (args : List Object) (v : Object)
    (h : (loxClassCall (fuel + 1) c I st args).1 = .ok v) :
    v = .inst ⟨c, st.fields.length⟩ := by
  unfold loxClassCall at h
  simp only [Store.allocFields] at h
  split at h
  · split at h
    · simp at h
    · simp only [Except.ok.injEq] at h
      exact h.symm
  · simp only [Except.ok.injEq] at h
    exact h.symm

/-- C2 witness: `B() { init() { return; } }` evaluates to the fresh instance
of `B` by the theorem; and for `P { init(p) { this.f = p; } }`, `P(42)`
leaves `f = 42` in the new instance's field map — `init` really was bound to
the fresh instance and invoked with the argument. -/
theorem class_call_fresh_instance_witness :
    (loxClassCall 10 classB I0 initialStore []).1 = .ok (.inst ⟨classB, 0⟩) ∧
    Object.inst ⟨classB, 0⟩ = .inst ⟨classB, initialStore.fields.length⟩ ∧
    ((loxClassCall 10 classP interpP initialStore
        [.number 42]).2.fields.getD 0 []).lookup "f" = some (.number 42) :=
  ⟨rfl,
   class_call_returns_fresh_instance 9 classB I0 initialStore []
     (.inst ⟨classB, 0⟩) rfl,
   rfl⟩

/-- C5 counterexample: the claim says two distinct instance values (or class
values) sharing a class name compare **unequal**.  The code's `PartialEq
for Object` compares instances and classes by name alone: two instances of
`C` with different (hence distinct) field maps compare equal, and two
different classes both named `C` compare equal. -/
theorem object_eq_identity_counterexample :
    objectEq (.inst ⟨classC, 0⟩) (.inst ⟨classC, 1⟩) = true ∧
    (⟨classC, 0⟩ : LoxInstance).fieldsId ≠ (⟨classC, 1⟩ : LoxInstance).fieldsId ∧
    objectEq (.cls classC) (.cls classCprime) = true ∧
    classC.methods ≠ classCprime.methods :=
  ⟨rfl, by decide, rfl, by simp [classC, classCprime, LoxClass.methods]⟩

/-- C5 as amended: `==` is structural on `Number`/`String`/`Bool`/`Nil`,
compares `Function` by `Arc` identity, compares `Class` and `Instance` by
**class name** (not identity), and is `false` — without error — across
different kinds. -/
theorem object_eq_by_kind_and_name :
    (∀ q1 q2 : Rat, objectEq (.number q1) (.number q2) = (q1 == q2)) ∧
    (∀ s1 s2 : String, objectEq (.str s1) (.str s2) = (s1 == s2)) ∧
    (∀ b1 b2 : Bool, objectEq (.bool b1) (.bool b2) = (b1 == b2)) ∧
    objectEq .null .null = true ∧
    (∀ id1 c1 id2 c2,
      objectEq (.func id1 c1) (.func id2 c2) = (id1 == id2)) ∧
    (∀ c1 c2 : LoxClass, objectEq (.cls c1) (.cls c2) = (c1.name == c2.name)) ∧
    (∀ i1 i2 : LoxInstance,
      objectEq (.inst i1) (.inst i2) = (i1.class_.name == i2.class_.name)) ∧
    (∀ v w : Object, v.kindIdx ≠ w.kindIdx → objectEq v w = false) := by
  refine ⟨fun _ _ => rfl, fun _ _ => rfl, fun _ _ => rfl, rfl,
    fun _ _ _ _ => rfl, fun _ _ => rfl, fun _ _ => rfl, ?_⟩
  intro v w h
  cases v <;> cases w <;> first | rfl | exact absurd rfl h

/-- C5 witness: a number and a string are of different kinds, and comparing
them answers `false` (no error), by the theorem. -/
theorem object_eq_by_kind_witness :
    objectEq (.number 1) (.str "a") = false :=
  object_eq_by_kind_and_name.2.2.2.2.2.2.2 (.number 1) (.str "a") (by decide)

/-- C8 counterexample: the claim says the arity error message is exactly
`Expected N arguments but got M.` — the format string in `visit_call_expr`
ends in `\n`, so calling the arity-0 function `g` with one argument raises
the message with a trailing newline, which is not the claimed string. -/
theorem arity_message_has_trailing_newline :
    (evaluate 10 I0 stC8 c8Expr).1 =
      .error (.rte 1 "Expected 0 arguments but got 1.\n") ∧
    "Expected 0 arguments but got 1.\n" ≠ "Expected 0 arguments but got 1." :=
  ⟨rfl, by decide⟩

/-- C8 as amended: with the callee evaluated to a `Function` or `Class` of
arity `N` and the `M` arguments evaluated left-to-right, an arity mismatch
raises `Expected N arguments but got M.` **followed by a newline**; on a
match the callable is invoked with the full argument list (no truncation or
padding). -/
theorem call_arity_dispatch (fuel : Nat) (I : Interp) (st st1 st2 : Store)
    (callee : Expr) (paren : Token) (args : List Expr)
    (calleeV : Object) (argVals : List Object)
    (hc : evaluate fuel I st callee = (.ok calleeV, st1))
    (ha : evalArgs fuel I st1 args = (.ok argVals, st2))
    (hf : calleeV.is_fun = true) :
    (argVals.length ≠ calleeArity calleeV →
      evaluate (fuel + 1) I st (.call callee paren args) =
        (.error (.rte paren.line ("Expected " ++ toString (calleeArity calleeV) ++
          " arguments but got " ++ toString argVals.length ++ ".\n")), st2)) ∧
    (argVals.length = calleeArity calleeV →
      (∀ id f, calleeV = .func id (.fn f) →
        evaluate (fuel + 1) I st (.call callee paren args) =
          loxFunctionCall fuel f I st2 argVals) ∧
      (∀ c, calleeV = .cls c →
        evaluate (fuel + 1) I st (.call callee paren args) =
          loxClassCall fuel c I st2 argVals)) := by
  constructor
  · intro hne
    have hb : (argVals.length != calleeArity calleeV) = true := by
      simpa [bne_iff_ne] using hne
    simp only [evaluate, hc, ha, hf, Bool.not_true, Bool.false_eq_true,
      if_false, hb, if_true]
  · intro heq
    constructor
    · intro id f hv
      subst hv
      have hb : (argVals.length !=
          calleeArity (Object.func id (.fn f))) = false := by
        simp [bne_iff_ne, heq]
      simp only [evaluate, hc, ha, Object.is_fun, Bool.not_true,
        Bool.false_eq_true, if_false, hb]
    · intro c hv
      subst hv
      have hb : (argVals.length != calleeArity (Object.cls c)) = false := by
        simp [bne_iff_ne, heq]
      simp only [evaluate, hc, ha, Object.is_fun, Bool.not_true,
        Bool.false_eq_true, if_false, hb]

/-- C8 witness: the amended theorem applied to `g(1)` against the arity-0
global `g`. -/
theorem call_arity_dispatch_witness :
    evaluate 10 I0 stC8 c8Expr =
      (.error (.rte 1 "Expected 0 arguments but got 1.\n"), stC8) :=
  (call_arity_dispatch 9 I0 stC8 stC8 stC8 (.variable_ gTok) rparenTok
    [.literal (.num 1)] (.func 0 (.fn gFn)) [.number 1] rfl rfl rfl).1
    (by decide)

/-- C9: evaluating `super.m` with recorded depth `d + 1` fetches the
superclass at `getAt(d+1, "super")` and the receiver at `getAt(d, "this")`,
looks `m` up through the **superclass's** chain (the current class never
enters the lookup), and yields that method bound to the receiver — a fresh
function object whose closure is a new frame binding `this` to the receiver
over the method's closure; a missing method raises
`Undefined property 'm'.`. -/
theorem super_dispatch (fuel d : Nat) (I : Interp) (st : Store)
    (keyword method : Token) (sc : LoxClass) (i : LoxInstance)
    (hd : localsGet I.locals (.super_ keyword method) = some (d + 1))
    (hs : st.getAt I.environment (d + 1) "super" = some (.cls sc))
    (ht : st.getAt I.environment d "this" = some (.inst i)) :
    (∀ m, sc.find_method method.lexeme = some m →
      evaluate (fuel + 1) I st (.super_ keyword method) =
        (.ok (.func st.nextFunId
            (.fn ⟨m.declaration, st.envs.length, m.is_initializer⟩)),
          { st with
              envs := st.envs ++ [⟨[("this", some (.inst i))], some m.closure⟩],
              nextFunId := st.nextFunId + 1 })) ∧
    (sc.find_method method.lexeme = none →
      evaluate (fuel + 1) I st (.super_ keyword method) =
        (.error (.rte method.line
          ("Undefined property '" ++ method.lexeme ++ "'.")), st)) := by
  constructor
  · intro m hm
    simp only [evaluate, hd, hs, ht, hm, LoxFunction.bind, Store.alloc]
  · intro hm
    simp only [evaluate, hd, hs, ht, hm]

/-- C9 witness: inside a `Sub` method body (environment chain call frame →
`this` frame → `super` frame → globals, recorded depth 2), `super.m` yields
`A.m` (not `Sub`'s override) bound to the receiving `Sub` instance, and
`super.nope` raises `Undefined property 'nope'.`. -/
theorem super_dispatch_witness :
    evaluate 10 interpC9 stC9 (.super_ superTok mTok) =
      (.ok (.func 0 (.fn ⟨mDeclA, 4, false⟩)),
        { stC9 with
            envs := stC9.envs ++
              [⟨[("this", some (.inst ⟨classSub9, 0⟩))], some 0⟩],
            nextFunId := 1 }) ∧
    evaluate 10 interpC9 stC9 (.super_ superTok nopeTok) =
      (.error (.rte 1 "Undefined property 'nope'."), stC9) :=
  ⟨(super_dispatch 9 1 interpC9 stC9 superTok mTok classA9 ⟨classSub9, 0⟩
      rfl rfl rfl).1 ⟨mDeclA, 0, false⟩ rfl,
   (super_dispatch 9 1 interpC9 stC9 superTok nopeTok classA9 ⟨classSub9, 0⟩
      rfl rfl rfl).2 rfl⟩

/-- C10: when a `Set` expression's receiver evaluates to a non-instance
value, the interpreter raises `Only instances have fields.` **before**
evaluating the right-hand side: the result store is exactly the store after
the receiver's evaluation, so the right-hand side's effects never happen and
the failed assignment modifies nothing. -/
theorem set_non_instance_skips_value (fuel : Nat) (I : Interp) (st st1 : Store)
    (object value : Expr) (name : Token) (v : Object)
    (ho : evaluate fuel I st object = (.ok v, st1))
    (hv : ∀ i, v ≠ .inst i) :
    evaluate (fuel + 1) I st (.set object name value) =
      (.error (.rte name.line "Only instances have fields."), st1) := by
  cases v with
  | inst i => exact absurd rfl (hv i)
  | number n => simp only [evaluate, ho]
  | str s => simp only [evaluate, ho]
  | bool b => simp only [evaluate, ho]
  | func id c => simp only [evaluate, ho]
  | cls c => simp only [evaluate, ho]
  | null => simp only [evaluate, ho]

/-- C10 witness: `3.f = (x = 2)` with a global `x = 1` fails with
`Only instances have fields.` and leaves the store — in particular the
global `x` — untouched: the side-effecting right-hand side never ran. -/
theorem set_non_instance_witness :
    evaluate 10 I0 stC10 c10Expr =
      (.error (.rte 1 "Only instances have fields."), stC10) ∧
    (stC10.envs.getD 0 ⟨[], none⟩).values.lookup "x" =
      some (some (.number 1)) :=
  ⟨set_non_instance_skips_value 9 I0 stC10 stC10 (.literal (.num 3))
     (.assign xTok (.literal (.num 2))) fldTok (.number 3) rfl
     (fun _ h => Object.noConfusion h),
   rfl⟩

end JLox
